import Mathlib

/-!
Verification of the orchestration engine of this repository.

The definitions below are a shallow embedding of `src/core/orchestrator.py`
and of the execution loop of `src/core/execution_flow.py`:

* Python `float` values are modelled as `ℚ` (all arithmetic in the embedded
  code is exact decimal arithmetic on scores in `[0,1]`, retry delays, and
  thresholds);
* Python dictionaries are modelled as association lists with first-match
  lookup and in-place replacement on write (insertion order preserved,
  matching CPython dict semantics);
* wall-clock timestamps (`datetime.now()`) are passed in as explicit
  parameters;
* fallible or effectful pieces (agent execution, random choice) are passed
  in as explicit oracle parameters.

Theorems named `C1_*` .. `C10_*` settle the corresponding claims.
-/

/-! ### Association list helpers (CPython `dict` semantics) -/

/-- Lookup in a string-keyed association list, first match wins
(models `d.get(k)` / `d[k]`). -/
def alistGet {β : Type} (l : List (String × β)) (k : String) : Option β :=
  (l.find? (fun p => p.1 == k)).map Prod.snd

/-- Write to a string-keyed association list: replaces the first binding of
the key in place, or appends a new binding (models `d[k] = v`). -/
def alistSet {β : Type} (l : List (String × β)) (k : String) (v : β) :
    List (String × β) :=
  match l with
  | [] => [(k, v)]
  | p :: rest => if p.1 == k then (k, v) :: rest else p :: alistSet rest k v

theorem alistGet_nil {β : Type} (k : String) : alistGet ([] : List (String × β)) k = none := rfl

theorem alistGet_cons {β : Type} (p : String × β) (l : List (String × β)) (k : String) :
    alistGet (p :: l) k = if p.1 = k then some p.2 else alistGet l k := by
  by_cases h : p.1 = k
  · simp [alistGet, List.find?, h]
  · have hb : (p.1 == k) = false := by simp [h]
    simp [alistGet, List.find?, hb, h]

theorem alistGet_set {β : Type} (l : List (String × β)) (k : String) (v : β) (k' : String) :
    alistGet (alistSet l k v) k' = if k' = k then some v else alistGet l k' := by
  induction l with
  | nil =>
    by_cases h : k' = k
    · simp [alistSet, alistGet_cons, alistGet_nil, h]
    · have h2 : ¬ k = k' := fun e => h e.symm
      simp [alistSet, alistGet_cons, alistGet_nil, h, h2]
  | cons p rest ih =>
    by_cases hpk : p.1 = k
    · have hpkb : (p.1 == k) = true := by simp [hpk]
      by_cases h : k' = k
      · simp [alistSet, hpkb, alistGet_cons, hpk, h]
      · have h2 : ¬ k = k' := fun e => h e.symm
        simp [alistSet, hpkb, alistGet_cons, hpk, h, h2]
    · have hpkb : (p.1 == k) = false := by simp [hpk]
      simp only [alistSet, hpkb, Bool.false_eq_true, if_false]
      rw [alistGet_cons, alistGet_cons, ih]
      by_cases hp : p.1 = k'
      · have h : ¬ k' = k := fun e => hpk (hp.trans e)
        simp [hp, h]
      · simp [hp]

/-! ### Orchestrator state machine (`class StateMachine` in orchestrator.py) -/

/-- States of the orchestrator state machine (`class OrchestratorState`). -/
inductive OrchestratorState where
  | IDLE | PLANNING | DECOMPOSING | ASSIGNING | EXECUTING | MONITORING
  | EVALUATING | RETRYING | FALLBACK | COMPLETED | FAILED | PAUSED
deriving DecidableEq, Repr

/-- The fixed transition table `self.transitions` built in
`StateMachine.__init__` (a dict from state to a set of states; the set is
modelled as a list, membership is all that is ever used). -/
def StateMachine.transitionsTable : OrchestratorState → List OrchestratorState
  | .IDLE => [.PLANNING, .PAUSED]
  | .PLANNING => [.DECOMPOSING, .IDLE]
  | .DECOMPOSING => [.ASSIGNING, .PLANNING]
  | .ASSIGNING => [.EXECUTING, .DECOMPOSING]
  | .EXECUTING => [.MONITORING, .RETRYING, .FALLBACK]
  | .MONITORING => [.EXECUTING, .EVALUATING, .RETRYING]
  | .EVALUATING => [.EXECUTING, .COMPLETED, .FAILED]
  | .RETRYING => [.EXECUTING, .FALLBACK]
  | .FALLBACK => [.EXECUTING, .FAILED, .PAUSED]
  | .COMPLETED => [.IDLE]
  | .FAILED => [.IDLE, .RETRYING]
  | .PAUSED => [.IDLE, .EXECUTING]

/-- A record appended to `self.state_history`
(`{"from": ..., "to": ..., "timestamp": ...}`). -/
structure HistoryRecord where
  src : OrchestratorState
  dst : OrchestratorState
  timestamp : Nat
deriving DecidableEq, Repr

/-- The mutable state of `class StateMachine`: `current_state` starts at
`IDLE`, `state_history` starts empty. -/
structure StateMachine where
  current_state : OrchestratorState
  state_history : List HistoryRecord
deriving DecidableEq, Repr

/-- `StateMachine()` constructor. -/
def StateMachine.init : StateMachine := ⟨.IDLE, []⟩

/-- `StateMachine.transition(new_state)`.  The wall clock passed to the
appended record is the explicit `now` parameter.  The method is a total
function on its inputs (the Python body is a guarded dict lookup, a field
assignment and a list append; no code path raises). -/
def StateMachine.transition (sm : StateMachine) (new_state : OrchestratorState) (now : Nat) :
    Bool × StateMachine :=
  if new_state ∈ StateMachine.transitionsTable sm.current_state then
    (true, ⟨new_state, sm.state_history ++ [⟨sm.current_state, new_state, now⟩]⟩)
  else
    (false, sm)

/-- `StateMachine.can_transition_to(state)`. -/
def StateMachine.can_transition_to (sm : StateMachine) (s : OrchestratorState) : Bool :=
  decide (s ∈ StateMachine.transitionsTable sm.current_state)

/-- Claim C3: for every current state and every target state,
`StateMachine.transition(target)` returns `True` and appends exactly one
history record `(from, to, timestamp)` when the edge `(current, target)` is
in the fixed transition table, and otherwise returns `False` leaving both
`current_state` and `state_history` unchanged.  (The embedding is a total
function, reflecting that no code path of the method raises.) -/
theorem C3_transition_correct (sm : StateMachine) (target : OrchestratorState) (now : Nat) :
    (target ∈ StateMachine.transitionsTable sm.current_state →
      StateMachine.transition sm target now =
        (true, ⟨target, sm.state_history ++ [⟨sm.current_state, target, now⟩]⟩)) ∧
    (target ∉ StateMachine.transitionsTable sm.current_state →
      StateMachine.transition sm target now = (false, sm)) := by
  constructor <;> intro h <;> simp [StateMachine.transition, h]

/-- Witness for C3 at concrete inputs: from `IDLE`, the transition to
`PLANNING` is in the table and succeeds appending one record, and the
transition to `EXECUTING` is not in the table and is rejected unchanged. -/
theorem C3_transition_correct_witness :
    (OrchestratorState.PLANNING ∈ StateMachine.transitionsTable StateMachine.init.current_state ∧
      StateMachine.transition StateMachine.init .PLANNING 7 =
        (true, ⟨.PLANNING, [⟨.IDLE, .PLANNING, 7⟩]⟩)) ∧
    (OrchestratorState.EXECUTING ∉ StateMachine.transitionsTable StateMachine.init.current_state ∧
      StateMachine.transition StateMachine.init .EXECUTING 7 = (false, StateMachine.init)) :=
  ⟨⟨by decide, (C3_transition_correct StateMachine.init .PLANNING 7).1 (by decide)⟩,
   ⟨by decide, (C3_transition_correct StateMachine.init .EXECUTING 7).2 (by decide)⟩⟩

/-! ### Credit ledger (`class CreditAssignment`) -/

/-- `@dataclass AgentCredit` (timestamp modelled as a `Nat` tick). -/
structure AgentCredit where
  agent_id : String
  task_id : String
  mission_id : String
  contribution_score : ℚ
  success_credit : ℚ
  failure_credit : ℚ
  quality_score : ℚ
  timestamp : Nat
deriving DecidableEq, Repr

/-- The ledger `self.credits` of `class CreditAssignment`, in append order.
The companion dict `self.agent_credits[aid]` always holds exactly the
ledger entries with that `agent_id`, in the same order (both lists are
appended to together in `assign_credit`), so it is modelled as a filter. -/
def CreditAssignment.agent_credits (credits : List AgentCredit) (agent_id : String) :
    List AgentCredit :=
  credits.filter (fun c => c.agent_id == agent_id)

/-- `CreditAssignment.assign_credit(...)`: builds the credit record and
appends it to the ledger; returns the record and the new ledger. -/
def CreditAssignment.assign_credit (credits : List AgentCredit)
    (agent_id task_id mission_id : String) (success : Bool)
    (quality_score contribution_weight : ℚ) (now : Nat) :
    AgentCredit × List AgentCredit :=
  let credit : AgentCredit :=
    ⟨agent_id, task_id, mission_id, contribution_weight,
      if success then 1 else 0, if success then 0 else 1, quality_score, now⟩
  (credit, credits ++ [credit])

/-- `CreditAssignment.get_agent_total_credit(agent_id)`. -/
def CreditAssignment.get_agent_total_credit (credits : List AgentCredit)
    (agent_id : String) : ℚ :=
  let cs := CreditAssignment.agent_credits credits agent_id
  if cs.isEmpty then 0
  else (cs.map (fun c => c.success_credit * c.contribution_score)).sum

/-- `CreditAssignment.get_agent_success_rate(agent_id)` (the inner
`if total > 0` guard of the source is kept). -/
def CreditAssignment.get_agent_success_rate (credits : List AgentCredit)
    (agent_id : String) : ℚ :=
  let cs := CreditAssignment.agent_credits credits agent_id
  if cs.isEmpty then 0
  else
    let total := cs.length
    let successes := (cs.filter (fun c => decide (0 < c.success_credit))).length
    if 0 < total then (successes : ℚ) / (total : ℚ) else 0

/-- `CreditAssignment.get_agent_average_quality(agent_id)` (the inner
`if credits` guard of the source coincides with the outer one). -/
def CreditAssignment.get_agent_average_quality (credits : List AgentCredit)
    (agent_id : String) : ℚ :=
  let cs := CreditAssignment.agent_credits credits agent_id
  if cs.isEmpty then 0
  else (cs.map (fun c => c.quality_score)).sum / (cs.length : ℚ)

/-- `CreditAssignment.get_mission_credits(mission_id)`. -/
def CreditAssignment.get_mission_credits (credits : List AgentCredit)
    (mission_id : String) : List AgentCredit :=
  credits.filter (fun c => c.mission_id == mission_id)

/-- Claim C9: for every agent id with no recorded credits in the ledger,
`get_agent_total_credit`, `get_agent_success_rate` and
`get_agent_average_quality` each return `0.0`.  All three are total
functions (never raise): the division by the record count only occurs
under the non-emptiness guard. -/
theorem C9_empty_agent_zero (credits : List AgentCredit) (agent_id : String)
    (h : CreditAssignment.agent_credits credits agent_id = []) :
    CreditAssignment.get_agent_total_credit credits agent_id = 0 ∧
    CreditAssignment.get_agent_success_rate credits agent_id = 0 ∧
    CreditAssignment.get_agent_average_quality credits agent_id = 0 := by
  refine ⟨?_, ?_, ?_⟩ <;>
    simp [CreditAssignment.get_agent_total_credit,
      CreditAssignment.get_agent_success_rate,
      CreditAssignment.get_agent_average_quality, h]

/-- Witness for C9: a ledger holding one credit for agent `b` has no
records for agent `a`, and all three aggregates return `0` for `a`. -/
theorem C9_empty_agent_zero_witness :
    CreditAssignment.agent_credits [⟨"b", "t1", "m1", 1, 1, 0, (1/2 : ℚ), 0⟩] "a" = [] ∧
    (CreditAssignment.get_agent_total_credit [⟨"b", "t1", "m1", 1, 1, 0, (1/2 : ℚ), 0⟩] "a" = 0 ∧
     CreditAssignment.get_agent_success_rate [⟨"b", "t1", "m1", 1, 1, 0, (1/2 : ℚ), 0⟩] "a" = 0 ∧
     CreditAssignment.get_agent_average_quality [⟨"b", "t1", "m1", 1, 1, 0, (1/2 : ℚ), 0⟩] "a" = 0) :=
  ⟨by decide, C9_empty_agent_zero [⟨"b", "t1", "m1", 1, 1, 0, (1/2 : ℚ), 0⟩] "a" (by decide)⟩

/-! ### Policy configuration (`@dataclass OrchestratorPolicy`) -/

/-- `class RetryStrategy(Enum)`. -/
inductive RetryStrategy where
  | IMMEDIATE | EXPONENTIAL_BACKOFF | LINEAR_BACKOFF | NO_RETRY
deriving DecidableEq, Repr

/-- `class FallbackStrategy(Enum)`. -/
inductive FallbackStrategy where
  | NEXT_BEST_AGENT | HUMAN_INTERVENTION | SIMPLIFY_TASK | SKIP_TASK | ABORT_MISSION
deriving DecidableEq, Repr

/-- `class StoppingCondition(Enum)`. -/
inductive StoppingCondition where
  | CONFIDENCE_THRESHOLD | SCORE_CONVERGENCE | HUMAN_INTERVENTION
  | MAX_ITERATIONS | TIME_LIMIT | SUCCESS_CRITERIA
deriving DecidableEq, Repr

/-- `@dataclass OrchestratorPolicy`. -/
structure OrchestratorPolicy where
  agent_selection_strategy : String
  task_prioritization_strategy : String
  retry_enabled : Bool
  max_retries_per_task : Nat
  default_retry_strategy : RetryStrategy
  fallback_enabled : Bool
  default_fallback_strategy : FallbackStrategy
  adaptive_learning_enabled : Bool
  confidence_threshold : ℚ
  convergence_threshold : ℚ
  max_iterations : Nat
deriving DecidableEq, Repr

/-- The dataclass field defaults of `OrchestratorPolicy()`. -/
def OrchestratorPolicy.default : OrchestratorPolicy :=
  ⟨"performance_based", "dependency_aware", true, 3, .EXPONENTIAL_BACKOFF,
    true, .NEXT_BEST_AGENT, true, 8/10, 1/100, 100⟩

/-! ### Adaptive weights (`class AdaptiveOrchestrator`) -/

/-- `self.adaptation_weights.get(agent_id, 1.0)`: the weights dict is a
`defaultdict(lambda: 1.0)` that is only ever read through `.get` with
default `1.0` in `get_adaptive_agent_score`, and written by plain
assignment elsewhere. -/
def AdaptiveOrchestrator.weight_get (weights : List (String × ℚ)) (agent_id : String) : ℚ :=
  (alistGet weights agent_id).getD 1

/-- `AdaptiveOrchestrator.get_adaptive_agent_score(agent_id, base_score)`. -/
def AdaptiveOrchestrator.get_adaptive_agent_score (weights : List (String × ℚ))
    (agent_id : String) (base_score : ℚ) : ℚ :=
  base_score * AdaptiveOrchestrator.weight_get weights agent_id

/-- First-occurrence deduplication: the key sequence of a CPython dict
built by repeated assignment (first write fixes the position). -/
def firstDedup : List String → List String
  | [] => []
  | x :: xs => x :: (firstDedup xs).filter (fun y => y != x)

/-- The key list of `self.agent_credits` after the ledger `credits` has been
appended agent by agent: agents in order of their first ledger entry. -/
def CreditAssignment.agentIds (credits : List AgentCredit) : List String :=
  firstDedup (credits.map (fun c => c.agent_id))

/-- `AdaptiveOrchestrator.update_from_credits()`: recomputes the adaptation
weight of every agent that has ledger history, in key order. -/
def AdaptiveOrchestrator.update_from_credits (credits : List AgentCredit)
    (weights : List (String × ℚ)) : List (String × ℚ) :=
  (CreditAssignment.agentIds credits).foldl
    (fun w agent_id =>
      alistSet w agent_id
        (CreditAssignment.get_agent_success_rate credits agent_id * (6/10) +
         CreditAssignment.get_agent_average_quality credits agent_id * (4/10)))
    weights

/-- Claim C8: `get_adaptive_agent_score` returns the base score multiplied
by the stored adaptation weight; an agent with no stored weight (no
recorded history) gets weight `1.0`; and for a fixed non-negative base
score the result is monotone in the stored weight. -/
theorem C8_adaptive_score (weights : List (String × ℚ)) (agent_id : String) (base_score : ℚ) :
    AdaptiveOrchestrator.get_adaptive_agent_score weights agent_id base_score =
      base_score * AdaptiveOrchestrator.weight_get weights agent_id ∧
    (alistGet weights agent_id = none →
      AdaptiveOrchestrator.get_adaptive_agent_score weights agent_id base_score = base_score) ∧
    (∀ weights' : List (String × ℚ), 0 ≤ base_score →
      AdaptiveOrchestrator.weight_get weights agent_id ≤
        AdaptiveOrchestrator.weight_get weights' agent_id →
      AdaptiveOrchestrator.get_adaptive_agent_score weights agent_id base_score ≤
        AdaptiveOrchestrator.get_adaptive_agent_score weights' agent_id base_score) := by
  refine ⟨rfl, ?_, ?_⟩
  · intro h
    simp [AdaptiveOrchestrator.get_adaptive_agent_score, AdaptiveOrchestrator.weight_get, h]
  · intro weights' hb hw
    exact mul_le_mul_of_nonneg_left hw hb

/-- Witness for C8: the agent `a` is absent from the weight store
`[("b", 1/2)]`, so its biased score is the base score itself, and raising
the stored weight from `1/2` to `3/4` raises the biased score of `b`. -/
theorem C8_adaptive_score_witness :
    (alistGet [("b", (1/2 : ℚ))] "a" = none ∧
      AdaptiveOrchestrator.get_adaptive_agent_score [("b", (1/2 : ℚ))] "a" (3/5) = 3/5) ∧
    ((0 : ℚ) ≤ 3/5 ∧
      AdaptiveOrchestrator.weight_get [("b", (1/2 : ℚ))] "b" ≤
        AdaptiveOrchestrator.weight_get [("b", (3/4 : ℚ))] "b" ∧
      AdaptiveOrchestrator.get_adaptive_agent_score [("b", (1/2 : ℚ))] "b" (3/5) ≤
        AdaptiveOrchestrator.get_adaptive_agent_score [("b", (3/4 : ℚ))] "b" (3/5)) :=
  ⟨⟨by simp [alistGet_cons, alistGet_nil],
    (C8_adaptive_score [("b", (1/2 : ℚ))] "a" (3/5)).2.1 (by simp [alistGet_cons, alistGet_nil])⟩,
   ⟨by norm_num,
    by simp [AdaptiveOrchestrator.weight_get, alistGet_cons]; norm_num,
    (C8_adaptive_score [("b", (1/2 : ℚ))] "b" (3/5)).2.2 [("b", (3/4 : ℚ))]
      (by norm_num)
      (by simp [AdaptiveOrchestrator.weight_get, alistGet_cons]; norm_num)⟩⟩

theorem mem_firstDedup (l : List String) (a : String) : a ∈ firstDedup l ↔ a ∈ l := by
  induction l with
  | nil => simp [firstDedup]
  | cons x xs ih =>
    simp only [firstDedup, List.mem_cons, List.mem_filter, ih]
    by_cases h : a = x
    · simp [h]
    · simp [h, bne_iff_ne, Ne, and_true]

theorem firstDedup_nodup (l : List String) : (firstDedup l).Nodup := by
  induction l with
  | nil => simp [firstDedup]
  | cons x xs ih =>
    simp only [firstDedup, List.nodup_cons]
    refine ⟨fun hx => ?_, ih.filter _⟩
    simp [List.mem_filter] at hx

theorem firstDedup_eq_self (l : List String) (h : l.Nodup) : firstDedup l = l := by
  induction l with
  | nil => simp [firstDedup]
  | cons x xs ih =>
    rw [List.nodup_cons] at h
    simp only [firstDedup]
    rw [ih h.2]
    have hf : xs.filter (fun y => y != x) = xs := by
      rw [List.filter_eq_self]
      intro y hy
      simp only [bne_iff_ne, Ne, decide_eq_true_eq]
      intro e
      exact h.1 (e ▸ hy)
    rw [hf]

theorem firstDedup_length_le (l : List String) : (firstDedup l).length ≤ l.length := by
  induction l with
  | nil => simp [firstDedup]
  | cons x xs ih =>
    simp only [firstDedup, List.length_cons]
    exact Nat.succ_le_succ (le_trans (List.length_filter_le _ _) ih)

theorem firstDedup_length_lt (l : List String) (h : ¬ l.Nodup) :
    (firstDedup l).length < l.length := by
  induction l with
  | nil => simp at h
  | cons x xs ih =>
    rw [List.nodup_cons] at h
    push_neg at h
    by_cases hx : x ∈ xs
    · have hxd : x ∈ firstDedup xs := (mem_firstDedup xs x).mpr hx
      have hlt : ((firstDedup xs).filter (fun y => y != x)).length <
          (firstDedup xs).length := by
        apply List.length_filter_lt_length_iff_exists.mpr
        exact ⟨x, hxd, by simp⟩
      simp only [firstDedup, List.length_cons]
      exact Nat.succ_lt_succ (lt_of_lt_of_le hlt (firstDedup_length_le _))
    · have hxs : ¬ xs.Nodup := h hx
      simp only [firstDedup, List.length_cons]
      exact Nat.succ_lt_succ
        (lt_of_le_of_lt (List.length_filter_le _ _) (ih hxs))

theorem alistGet_foldl_set_not_mem {β : Type} (L : List String) (f : String → β)
    (w : List (String × β)) (k : String) (h : k ∉ L) :
    alistGet (L.foldl (fun acc a => alistSet acc a (f a)) w) k = alistGet w k := by
  induction L generalizing w with
  | nil => rfl
  | cons a L ih =>
    simp only [List.mem_cons, not_or] at h
    simp only [List.foldl_cons]
    rw [ih _ h.2, alistGet_set, if_neg h.1]

theorem alistGet_foldl_set_mem {β : Type} (L : List String) (f : String → β) :
    ∀ (w : List (String × β)) (k : String), L.Nodup → k ∈ L →
    alistGet (L.foldl (fun acc a => alistSet acc a (f a)) w) k = some (f k) := by
  induction L with
  | nil => intro w k _ h; simp at h
  | cons a L ih =>
    intro w k hnd h
    rw [List.nodup_cons] at hnd
    simp only [List.foldl_cons]
    rcases List.mem_cons.mp h with he | hm
    · subst he
      rw [alistGet_foldl_set_not_mem L f _ k hnd.1, alistGet_set, if_pos rfl]
    · exact ih _ k hnd.2 hm

/-! ### `OrchestratorIntelligence.assign_credit` (the ledger-write entry point) -/

/-- `OrchestratorIntelligence.assign_credit(...)`: appends the credit to the
ledger (contribution weight defaulting to `1.0`) and then calls
`AdaptiveOrchestrator.update_from_credits()`.  Returns the credit record,
the new ledger and the new weight store. -/
def OrchestratorIntelligence.assign_credit (credits : List AgentCredit)
    (weights : List (String × ℚ)) (agent_id task_id mission_id : String)
    (success : Bool) (quality_score : ℚ) (now : Nat) :
    AgentCredit × List AgentCredit × List (String × ℚ) :=
  let r := CreditAssignment.assign_credit credits agent_id task_id mission_id
    success quality_score 1 now
  (r.1, r.2, AdaptiveOrchestrator.update_from_credits r.2 weights)

/-- Claim C5: when adaptive learning is enabled by policy, after every
ledger write performed through `OrchestratorIntelligence.assign_credit`
the stored adaptation weight of every agent with ledger history equals
`0.6 * successRate + 0.4 * averageQuality`, both computed from the
resulting ledger.  (The source recomputes the weights unconditionally
after every such write, so in particular whenever the policy enables
adaptive learning.) -/
theorem C5_assign_credit_refreshes_weights (policy : OrchestratorPolicy)
    (hpol : policy.adaptive_learning_enabled = true)
    (credits : List AgentCredit) (weights : List (String × ℚ))
    (agent_id task_id mission_id : String) (success : Bool)
    (quality_score : ℚ) (now : Nat) (aid : String)
    (hhist : CreditAssignment.agent_credits
      (OrchestratorIntelligence.assign_credit credits weights agent_id task_id
        mission_id success quality_score now).2.1 aid ≠ []) :
    AdaptiveOrchestrator.weight_get
      (OrchestratorIntelligence.assign_credit credits weights agent_id task_id
        mission_id success quality_score now).2.2 aid =
    CreditAssignment.get_agent_success_rate
      (OrchestratorIntelligence.assign_credit credits weights agent_id task_id
        mission_id success quality_score now).2.1 aid * (6/10) +
    CreditAssignment.get_agent_average_quality
      (OrchestratorIntelligence.assign_credit credits weights agent_id task_id
        mission_id success quality_score now).2.1 aid * (4/10) := by
  set L := (OrchestratorIntelligence.assign_credit credits weights agent_id task_id
    mission_id success quality_score now).2.1 with hL
  have hmem : aid ∈ CreditAssignment.agentIds L := by
    rw [CreditAssignment.agentIds, mem_firstDedup]
    rcases List.exists_mem_of_ne_nil _ hhist with ⟨c, hc⟩
    rw [CreditAssignment.agent_credits, List.mem_filter] at hc
    have : c.agent_id = aid := by simpa using hc.2
    exact this ▸ List.mem_map_of_mem _ hc.1
  have hrw : (OrchestratorIntelligence.assign_credit credits weights agent_id task_id
      mission_id success quality_score now).2.2 =
      AdaptiveOrchestrator.update_from_credits L weights := rfl
  have hnd : (CreditAssignment.agentIds L).Nodup := firstDedup_nodup _
  rw [hrw, AdaptiveOrchestrator.update_from_credits, AdaptiveOrchestrator.weight_get,
    alistGet_foldl_set_mem _ _ _ _ hnd hmem]
  rfl

/-- Witness for C5: one write for agent `a` on an empty ledger under the
default policy (adaptive learning enabled) stores weight
`0.6 * 1 + 0.4 * (1/2)` for `a`. -/
theorem C5_assign_credit_refreshes_weights_witness :
    OrchestratorPolicy.default.adaptive_learning_enabled = true ∧
    CreditAssignment.agent_credits
      (OrchestratorIntelligence.assign_credit [] [] "a" "t" "m" true (1/2) 0).2.1 "a" ≠ [] ∧
    AdaptiveOrchestrator.weight_get
      (OrchestratorIntelligence.assign_credit [] [] "a" "t" "m" true (1/2) 0).2.2 "a" =
    CreditAssignment.get_agent_success_rate
      (OrchestratorIntelligence.assign_credit [] [] "a" "t" "m" true (1/2) 0).2.1 "a" * (6/10) +
    CreditAssignment.get_agent_average_quality
      (OrchestratorIntelligence.assign_credit [] [] "a" "t" "m" true (1/2) 0).2.1 "a" * (4/10) :=
  ⟨rfl, by decide,
   C5_assign_credit_refreshes_weights OrchestratorPolicy.default rfl
     [] [] "a" "t" "m" true (1/2) 0 "a" (by decide)⟩

/-! ### Agent selection (`PolicyEngine.select_agent` and
`PolicyEngine._select_by_performance`) -/

/-- One entry of the `available_agents` list (a dict; only `"agent_id"` is
ever read by the selection code, the remaining fields are carried opaquely
as `agent_type`). -/
structure AgentInfo where
  agent_id : String
  agent_type : String
deriving DecidableEq, Repr

/-- One entry of the `agent_performance` dict.  Either key may be absent
(`perf.get("success_rate", 0.0)` / `perf.get("quality_score", 0.0)`). -/
structure PerfEntry where
  success_rate : Option ℚ
  quality_score : Option ℚ
deriving DecidableEq, Repr

/-- `performance.get(agent_id, {})`. -/
def perfLookup (performance : List (String × PerfEntry)) (agent_id : String) : PerfEntry :=
  (alistGet performance agent_id).getD ⟨none, none⟩

/-- The score `perf.get("success_rate", 0.0) * 0.6 +
perf.get("quality_score", 0.0) * 0.4` computed per candidate in
`_select_by_performance`. -/
def perfScore (performance : List (String × PerfEntry)) (agent_id : String) : ℚ :=
  let perf := perfLookup performance agent_id
  perf.success_rate.getD 0 * (6/10) + perf.quality_score.getD 0 * (4/10)

/-- Insert into a descending-sorted list, after any earlier element of equal
score.  `insertDesc`/`sortDesc` model the stable descending sort
`scored_agents.sort(key=lambda x: x[0], reverse=True)` of the source: any
stable sort produces the same output list. -/
def insertDesc (x : ℚ × String) : List (ℚ × String) → List (ℚ × String)
  | [] => [x]
  | y :: ys => if x.1 < y.1 then y :: insertDesc x ys else x :: y :: ys

/-- Stable descending sort by score (see `insertDesc`). -/
def sortDesc : List (ℚ × String) → List (ℚ × String)
  | [] => []
  | x :: xs => insertDesc x (sortDesc xs)

/-- The `scored_agents` list of `_select_by_performance`: each candidate in
list order paired with its score. -/
def scoredOf (performance : List (String × PerfEntry)) (agents : List AgentInfo) :
    List (ℚ × String) :=
  agents.map (fun a => (perfScore performance a.agent_id, a.agent_id))

/-- `PolicyEngine._select_by_performance(agents, performance)`: score each
candidate in list order, sort stably by descending score, return the first
id (`None` on an empty candidate list). -/
def PolicyEngine.select_by_performance (agents : List AgentInfo)
    (performance : List (String × PerfEntry)) : Option String :=
  match sortDesc (scoredOf performance agents) with
  | [] => none
  | x :: _ => some x.2

/-- `PolicyEngine.select_agent(...)`.  The round-robin cursor and the
uniform random draw of the `"random"` strategy are passed in as explicit
`rr_index` and `rand_pick` parameters (the random choice is modelled as an
arbitrary index into the candidate list). -/
def PolicyEngine.select_agent (policy : OrchestratorPolicy)
    (task_type task_description : String) (available_agents : List AgentInfo)
    (performance : List (String × PerfEntry)) (rr_index rand_pick : Nat) : Option String :=
  match available_agents with
  | [] => none
  | a :: rest =>
    if policy.agent_selection_strategy == "performance_based" then
      PolicyEngine.select_by_performance (a :: rest) performance
    else if policy.agent_selection_strategy == "round_robin" then
      some ((a :: rest).get ⟨rr_index % (a :: rest).length,
        Nat.mod_lt rr_index (Nat.succ_pos rest.length)⟩).agent_id
    else if policy.agent_selection_strategy == "random" then
      some ((a :: rest).get ⟨rand_pick % (a :: rest).length,
        Nat.mod_lt rand_pick (Nat.succ_pos rest.length)⟩).agent_id
    else
      some a.agent_id

theorem insertDesc_length (x : ℚ × String) (l : List (ℚ × String)) :
    (insertDesc x l).length = l.length + 1 := by
  induction l with
  | nil => rfl
  | cons y ys ih =>
    by_cases h : x.1 < y.1 <;> simp [insertDesc, h, ih]

theorem sortDesc_length (l : List (ℚ × String)) : (sortDesc l).length = l.length := by
  induction l with
  | nil => rfl
  | cons x xs ih => simp [sortDesc, insertDesc_length, ih]

/-- The head of the stable descending sort is the earliest element of
maximal score. -/
theorem sortDesc_head_earliest_max (l : List (ℚ × String)) (hne : l ≠ []) :
    ∃ i, ∃ h : i < l.length,
      (sortDesc l).head? = some (l.get ⟨i, h⟩) ∧
      (∀ j (hj : j < l.length), (l.get ⟨j, hj⟩).1 ≤ (l.get ⟨i, h⟩).1) ∧
      (∀ j (hj : j < i), (l.get ⟨j, Nat.lt_trans hj h⟩).1 < (l.get ⟨i, h⟩).1) := by
  induction l with
  | nil => exact absurd rfl hne
  | cons x xs ih =>
    cases xs with
    | nil =>
      refine ⟨0, Nat.zero_lt_one, rfl, ?_, ?_⟩
      · intro j hj
        have hj0 : j = 0 := Nat.lt_one_iff.mp hj
        subst hj0
        exact le_refl _
      · intro j hj
        exact absurd hj (Nat.not_lt_zero j)
    | cons b bs =>
      obtain ⟨i, hi, hhead, hmax, hstrict⟩ := ih (by simp)
      have hlen : sortDesc (b :: bs) ≠ [] := by
        intro e
        have hl := sortDesc_length (b :: bs)
        rw [e] at hl
        simp at hl
      obtain ⟨y, ys, hys⟩ := List.exists_cons_of_ne_nil hlen
      have hy : y = (b :: bs).get ⟨i, hi⟩ := by
        rw [hys] at hhead
        simpa using hhead
      have hsx : sortDesc (x :: b :: bs) = insertDesc x (y :: ys) := by
        show insertDesc x (sortDesc (b :: bs)) = _
        rw [hys]
      have hins : insertDesc x (y :: ys) =
          if x.1 < y.1 then y :: insertDesc x ys else x :: y :: ys := rfl
      by_cases hcmp : x.1 < y.1
      · refine ⟨i + 1, Nat.succ_lt_succ hi, ?_, ?_, ?_⟩
        · rw [hsx, hins, if_pos hcmp, List.head?_cons, hy]
          rfl
        · intro j hj
          cases j with
          | zero =>
            show x.1 ≤ ((b :: bs).get ⟨i, hi⟩).1
            rw [← hy]
            exact le_of_lt hcmp
          | succ j =>
            have hj' : j < (b :: bs).length := Nat.lt_of_succ_lt_succ hj
            exact hmax j hj'
        · intro j hj
          cases j with
          | zero =>
            show x.1 < ((b :: bs).get ⟨i, hi⟩).1
            rw [← hy]
            exact hcmp
          | succ j =>
            have hj' : j < i := Nat.lt_of_succ_lt_succ hj
            exact hstrict j hj'
      · refine ⟨0, Nat.succ_pos _, ?_, ?_, ?_⟩
        · rw [hsx, hins, if_neg hcmp, List.head?_cons]
          rfl
        · intro j hj
          cases j with
          | zero => exact le_refl _
          | succ j =>
            have hj' : j < (b :: bs).length := Nat.lt_of_succ_lt_succ hj
            have h1 : ((b :: bs).get ⟨j, hj'⟩).1 ≤ ((b :: bs).get ⟨i, hi⟩).1 := hmax j hj'
            have h2 : ((b :: bs).get ⟨i, hi⟩).1 ≤ x.1 := by
              rw [← hy]
              exact le_of_not_lt hcmp
            exact le_trans h1 h2
        · intro j hj
          exact absurd hj (Nat.not_lt_zero j)

/-- `_select_by_performance` returns the second component of the head of
the sorted scored list (or `None` when there are no candidates). -/
theorem PolicyEngine.select_by_performance_eq_head (agents : List AgentInfo)
    (performance : List (String × PerfEntry)) :
    PolicyEngine.select_by_performance agents performance =
      (sortDesc (scoredOf performance agents)).head?.map Prod.snd := by
  simp only [PolicyEngine.select_by_performance]
  cases hs : sortDesc (scoredOf performance agents) <;> simp

/-- Claim C6: for every non-empty candidate list, `select_agent` under the
performance-based strategy returns the agent id of the candidate whose
score `0.6 * successRate + 0.4 * qualityScore` is highest, and when several
candidates tie for the highest score it returns the earliest one in the
candidate list. -/
theorem C6_select_agent_performance (policy : OrchestratorPolicy)
    (hstrat : policy.agent_selection_strategy = "performance_based")
    (task_type task_description : String) (agents : List AgentInfo)
    (performance : List (String × PerfEntry)) (rr_index rand_pick : Nat)
    (hne : agents ≠ []) :
    ∃ i, ∃ h : i < agents.length,
      PolicyEngine.select_agent policy task_type task_description agents
        performance rr_index rand_pick = some (agents.get ⟨i, h⟩).agent_id ∧
      (∀ j (hj : j < agents.length),
        perfScore performance (agents.get ⟨j, hj⟩).agent_id ≤
          perfScore performance (agents.get ⟨i, h⟩).agent_id) ∧
      (∀ j (hj : j < i),
        perfScore performance (agents.get ⟨j, Nat.lt_trans hj h⟩).agent_id <
          perfScore performance (agents.get ⟨i, h⟩).agent_id) := by
  obtain ⟨a, rest, rfl⟩ := List.exists_cons_of_ne_nil hne
  obtain ⟨i, hi, hhead, hmax, hstrict⟩ :=
    sortDesc_head_earliest_max (scoredOf performance (a :: rest)) (by simp [scoredOf])
  have hilen : i < (a :: rest).length := by simpa [scoredOf] using hi
  have hget : ∀ (j : Nat) (hj : j < (a :: rest).length)
      (hj2 : j < (scoredOf performance (a :: rest)).length),
      (scoredOf performance (a :: rest)).get ⟨j, hj2⟩ =
      (perfScore performance ((a :: rest).get ⟨j, hj⟩).agent_id,
        ((a :: rest).get ⟨j, hj⟩).agent_id) := by
    intro j hj hj2
    simp only [scoredOf, List.get_eq_getElem, List.getElem_map]
  refine ⟨i, hilen, ?_, ?_, ?_⟩
  · have hsel : PolicyEngine.select_agent policy task_type task_description (a :: rest)
        performance rr_index rand_pick =
        PolicyEngine.select_by_performance (a :: rest) performance := by
      simp [PolicyEngine.select_agent, hstrat]
    obtain ⟨y, ys, hys⟩ := List.exists_cons_of_ne_nil
      (show sortDesc (scoredOf performance (a :: rest)) ≠ [] by
        intro e
        have hl := sortDesc_length (scoredOf performance (a :: rest))
        rw [e] at hl
        simp [scoredOf] at hl)
    have hy : y = (scoredOf performance (a :: rest)).get ⟨i, hi⟩ := by
      rw [hys] at hhead
      simpa using hhead
    rw [hsel, PolicyEngine.select_by_performance_eq_head, hys]
    simp only [List.head?_cons, Option.map_some]
    rw [hy, hget i hilen hi]
    rfl
  · intro j hj
    have hj' : j < (scoredOf performance (a :: rest)).length := by
      simpa [scoredOf] using hj
    have hle := hmax j hj'
    rw [hget j hj hj', hget i hilen hi] at hle
    exact hle
  · intro j hj
    have hjlen : j < (a :: rest).length := Nat.lt_trans hj hilen
    have hj' : j < (scoredOf performance (a :: rest)).length := by
      simpa [scoredOf] using hjlen
    have hlt := hstrict j (by simpa [scoredOf] using hj)
    rw [hget j hjlen _, hget i hilen hi] at hlt
    exact hlt

/-- Witness for C6: with candidates `a1` (score `0.7`) and `a2` (score
`0.86`), the performance-based selection under the default policy picks the
index-1 candidate `a2`. -/
theorem C6_select_agent_performance_witness :
    OrchestratorPolicy.default.agent_selection_strategy = "performance_based" ∧
    ([(⟨"a1", "coder"⟩ : AgentInfo), ⟨"a2", "coder"⟩] : List AgentInfo) ≠ [] ∧
    (∃ i, ∃ h : i < ([(⟨"a1", "coder"⟩ : AgentInfo), ⟨"a2", "coder"⟩] : List AgentInfo).length,
      PolicyEngine.select_agent OrchestratorPolicy.default "general" ""
        [⟨"a1", "coder"⟩, ⟨"a2", "coder"⟩]
        [("a1", ⟨some (7/10), some (7/10)⟩), ("a2", ⟨some (9/10), some (8/10)⟩)] 0 0 =
        some (([(⟨"a1", "coder"⟩ : AgentInfo), ⟨"a2", "coder"⟩] : List AgentInfo).get ⟨i, h⟩).agent_id ∧
      (∀ j (hj : j < ([(⟨"a1", "coder"⟩ : AgentInfo), ⟨"a2", "coder"⟩] : List AgentInfo).length),
        perfScore [("a1", ⟨some (7/10), some (7/10)⟩), ("a2", ⟨some (9/10), some (8/10)⟩)]
          (([(⟨"a1", "coder"⟩ : AgentInfo), ⟨"a2", "coder"⟩] : List AgentInfo).get ⟨j, hj⟩).agent_id ≤
        perfScore [("a1", ⟨some (7/10), some (7/10)⟩), ("a2", ⟨some (9/10), some (8/10)⟩)]
          (([(⟨"a1", "coder"⟩ : AgentInfo), ⟨"a2", "coder"⟩] : List AgentInfo).get ⟨i, h⟩).agent_id) ∧
      (∀ j (hj : j < i),
        perfScore [("a1", ⟨some (7/10), some (7/10)⟩), ("a2", ⟨some (9/10), some (8/10)⟩)]
          (([(⟨"a1", "coder"⟩ : AgentInfo), ⟨"a2", "coder"⟩] : List AgentInfo).get ⟨j, Nat.lt_trans hj h⟩).agent_id <
        perfScore [("a1", ⟨some (7/10), some (7/10)⟩), ("a2", ⟨some (9/10), some (8/10)⟩)]
          (([(⟨"a1", "coder"⟩ : AgentInfo), ⟨"a2", "coder"⟩] : List AgentInfo).get ⟨i, h⟩).agent_id)) :=
  ⟨rfl, by simp,
   C6_select_agent_performance OrchestratorPolicy.default rfl "general" ""
     [⟨"a1", "coder"⟩, ⟨"a2", "coder"⟩]
     [("a1", ⟨some (7/10), some (7/10)⟩), ("a2", ⟨some (9/10), some (8/10)⟩)] 0 0 (by simp)⟩

/-! ### Retry policy and execution monitoring
(`PolicyEngine.should_retry`, `PolicyEngine.get_retry_delay`,
`PolicyEngine.select_fallback`, `OrchestratorIntelligence.monitor_execution`) -/

/-- `PolicyEngine.should_retry(task_id, retry_count)`.  Retry counts are
natural numbers (they start at `0` and are only ever incremented). -/
def PolicyEngine.should_retry (policy : OrchestratorPolicy) (task_id : String)
    (retry_count : Nat) : Bool :=
  if ¬ policy.retry_enabled then false
  else if policy.max_retries_per_task ≤ retry_count then false
  else true

/-- `PolicyEngine.get_retry_delay(retry_count, strategy)`. -/
def PolicyEngine.get_retry_delay (retry_count : Nat) (strategy : RetryStrategy) : ℚ :=
  match strategy with
  | .IMMEDIATE => 0
  | .EXPONENTIAL_BACKOFF => min ((2 : ℚ) ^ retry_count) 60
  | .LINEAR_BACKOFF => (retry_count : ℚ) * 5
  | .NO_RETRY => 0

/-- The value returned by `PolicyEngine.select_fallback` (a dict or an
agent dict or `None` in the source). -/
inductive FallbackVal where
  | agent (a : AgentInfo)
  | human_intervention (task_id : String)
  | simplify_task (task_id : String)
  | skip_task (task_id : String)
  | abort_mission
deriving DecidableEq, Repr

/-- `PolicyEngine.select_fallback(task_id, failed_agent_id, available_agents)`. -/
def PolicyEngine.select_fallback (policy : OrchestratorPolicy)
    (task_id failed_agent_id : String) (available_agents : List AgentInfo) :
    Option FallbackVal :=
  if ¬ policy.fallback_enabled then none
  else
    match policy.default_fallback_strategy with
    | .NEXT_BEST_AGENT =>
      match available_agents.filter (fun a => a.agent_id != failed_agent_id) with
      | [] => none
      | a :: _ => some (FallbackVal.agent a)
    | .HUMAN_INTERVENTION => some (FallbackVal.human_intervention task_id)
    | .SIMPLIFY_TASK => some (FallbackVal.simplify_task task_id)
    | .SKIP_TASK => some (FallbackVal.skip_task task_id)
    | .ABORT_MISSION => some FallbackVal.abort_mission

/-- `@dataclass TaskAssignment`. -/
structure TaskAssignment where
  task_id : String
  agent_id : String
  priority : Nat
  retry_count : Nat
  max_retries : Nat
  retry_strategy : RetryStrategy
  fallback_strategy : FallbackStrategy
deriving DecidableEq, Repr

/-- The dict returned by `monitor_execution`. -/
inductive MonitorAction where
  | emptyDict
  | retryAction (delay : ℚ)
  | fallbackAction (strategy : Option FallbackVal)
  | continueAction
  | unknownAction
deriving DecidableEq, Repr

/-- The slice of `OrchestratorIntelligence` state that
`monitor_execution` reads and writes: the state machine, the
`active_assignments` dict and the policy. -/
structure OrchCore where
  sm : StateMachine
  active_assignments : List (String × TaskAssignment)
  policy : OrchestratorPolicy
deriving DecidableEq, Repr

/-- `OrchestratorIntelligence.monitor_execution(task_id, status)`.  The
retry branch computes the delay from the incremented count
(`assignment.retry_count += 1` happens before `get_retry_delay`). -/
def OrchestratorIntelligence.monitor_execution (s : OrchCore) (task_id status : String)
    (now : Nat) : MonitorAction × OrchCore :=
  if (StateMachine.transition s.sm .MONITORING now).1 then
    match alistGet s.active_assignments task_id with
    | some a =>
      if status == "failed" && PolicyEngine.should_retry s.policy task_id a.retry_count then
        (MonitorAction.retryAction
          (PolicyEngine.get_retry_delay (a.retry_count + 1) a.retry_strategy),
         ⟨(StateMachine.transition s.sm .MONITORING now).2,
           alistSet s.active_assignments task_id
             ⟨a.task_id, a.agent_id, a.priority, a.retry_count + 1, a.max_retries,
               a.retry_strategy, a.fallback_strategy⟩,
           s.policy⟩)
      else if status == "failed" then
        (MonitorAction.fallbackAction
          (PolicyEngine.select_fallback s.policy task_id a.agent_id []),
         ⟨(StateMachine.transition s.sm .MONITORING now).2, s.active_assignments, s.policy⟩)
      else if status == "completed" then
        (MonitorAction.continueAction,
         ⟨(StateMachine.transition s.sm .MONITORING now).2, s.active_assignments, s.policy⟩)
      else
        (MonitorAction.unknownAction,
         ⟨(StateMachine.transition s.sm .MONITORING now).2, s.active_assignments, s.policy⟩)
    | none =>
      (MonitorAction.unknownAction,
       ⟨(StateMachine.transition s.sm .MONITORING now).2, s.active_assignments, s.policy⟩)
  else
    (MonitorAction.emptyDict, s)

/-- A sequence of `monitor_execution` calls
(task id, reported status, timestamp). -/
def OrchestratorIntelligence.run_monitors (s : OrchCore)
    (calls : List (String × String × Nat)) : OrchCore :=
  calls.foldl (fun st c => (OrchestratorIntelligence.monitor_execution st c.1 c.2.1 c.2.2).2) s

/-- The retry-count bound of claim C7 over all tracked assignments. -/
def retryBoundInv (s : OrchCore) : Prop :=
  ∀ p ∈ s.active_assignments, p.2.retry_count ≤ s.policy.max_retries_per_task

theorem mem_alistSet {β : Type} (l : List (String × β)) (k : String) (v : β)
    (p : String × β) (hp : p ∈ alistSet l k v) : p = (k, v) ∨ p ∈ l := by
  induction l with
  | nil => simpa [alistSet] using hp
  | cons q rest ih =>
    simp only [alistSet] at hp
    by_cases hq : (q.1 == k) = true
    · simp only [hq, if_true] at hp
      rcases List.mem_cons.mp hp with he | hm
      · exact Or.inl he
      · exact Or.inr (List.mem_cons_of_mem q hm)
    · simp only [hq, if_false] at hp
      rcases List.mem_cons.mp hp with he | hm
      · exact Or.inr (he ▸ List.mem_cons_self q rest)
      · rcases ih hm with he | hm2
        · exact Or.inl he
        · exact Or.inr (List.mem_cons_of_mem q hm2)

theorem monitor_policy_eq (s : OrchCore) (tc status : String) (n : Nat) :
    (OrchestratorIntelligence.monitor_execution s tc status n).2.policy = s.policy := by
  unfold OrchestratorIntelligence.monitor_execution
  split
  · split
    · split
      · rfl
      · split
        · rfl
        · split
          · rfl
          · rfl
    · rfl
  · rfl

/-- Either `monitor_execution` leaves `active_assignments` untouched, or the
retry branch fired: the looked-up assignment existed, the status was
`"failed"` with `should_retry` true, and exactly that assignment had its
retry count incremented. -/
theorem monitor_assignments_cases (s : OrchCore) (tc status : String) (n : Nat) :
    (OrchestratorIntelligence.monitor_execution s tc status n).2.active_assignments =
      s.active_assignments ∨
    (∃ a0, alistGet s.active_assignments tc = some a0 ∧
      ((status == "failed") &&
        PolicyEngine.should_retry s.policy tc a0.retry_count) = true ∧
      (OrchestratorIntelligence.monitor_execution s tc status n).2.active_assignments =
        alistSet s.active_assignments tc
          ⟨a0.task_id, a0.agent_id, a0.priority, a0.retry_count + 1, a0.max_retries,
            a0.retry_strategy, a0.fallback_strategy⟩) := by
  unfold OrchestratorIntelligence.monitor_execution
  split
  · split
    case h_1 a0 ha0 =>
      split
      case isTrue hcond =>
        exact Or.inr ⟨a0, ha0, hcond, rfl⟩
      case isFalse =>
        split
        · exact Or.inl rfl
        · split
          · exact Or.inl rfl
          · exact Or.inl rfl
    case h_2 => exact Or.inl rfl
  · exact Or.inl rfl

theorem should_retry_iff (policy : OrchestratorPolicy) (task_id : String) (c : Nat) :
    PolicyEngine.should_retry policy task_id c = true ↔
      (policy.retry_enabled = true ∧ c < policy.max_retries_per_task) := by
  unfold PolicyEngine.should_retry
  by_cases h1 : policy.retry_enabled = true
  · by_cases h2 : policy.max_retries_per_task ≤ c
    · simp [h1, h2, Nat.not_lt_of_le h2]
    · simp [h1, h2, Nat.lt_of_not_le h2]
  · simp [h1]

theorem monitor_preserves_bound (s : OrchCore) (tc status : String) (n : Nat)
    (h : retryBoundInv s) :
    retryBoundInv (OrchestratorIntelligence.monitor_execution s tc status n).2 := by
  intro p hp
  rw [monitor_policy_eq]
  rcases monitor_assignments_cases s tc status n with heq | ⟨a0, ha0, hcond, heq⟩
  · rw [heq] at hp
    exact h p hp
  · rw [heq] at hp
    rcases mem_alistSet _ _ _ _ hp with he | hm
    · have hsr : PolicyEngine.should_retry s.policy tc a0.retry_count = true :=
        (Bool.and_eq_true _ _ |>.mp hcond).2
      have hlt : a0.retry_count < s.policy.max_retries_per_task :=
        ((should_retry_iff s.policy tc a0.retry_count).mp hsr).2
      rw [he]
      exact hlt
    · exact h p hm

/-- Claim C7: retry counts managed through `monitor_execution` never exceed
the policy bound, `should_retry` is false exactly when retries are disabled
or the count has reached `max_retries_per_task`, and a retry count changes
only by a single increment guarded by `should_retry`. -/
theorem C7_retry_bound (policy : OrchestratorPolicy) (task_id : String) (c : Nat)
    (s : OrchCore) (calls : List (String × String × Nat))
    (tc status : String) (n : Nat) (tid : String) (a a2 : TaskAssignment) :
    (PolicyEngine.should_retry policy task_id c = true ↔
      (policy.retry_enabled = true ∧ c < policy.max_retries_per_task)) ∧
    (retryBoundInv s → retryBoundInv (OrchestratorIntelligence.run_monitors s calls)) ∧
    (alistGet s.active_assignments tid = some a →
      alistGet (OrchestratorIntelligence.monitor_execution s tc status n).2.active_assignments
        tid = some a2 →
      a2.retry_count ≠ a.retry_count →
      PolicyEngine.should_retry s.policy tid a.retry_count = true ∧
        a2.retry_count = a.retry_count + 1) := by
  refine ⟨should_retry_iff policy task_id c, ?_, ?_⟩
  · intro h
    induction calls generalizing s with
    | nil => exact h
    | cons cll rest ih =>
      exact ih _ (monitor_preserves_bound s cll.1 cll.2.1 cll.2.2 h)
  · intro ha ha2 hne
    rcases monitor_assignments_cases s tc status n with heq | ⟨a0, ha0, hcond, heq⟩
    · rw [heq, ha] at ha2
      exact absurd (congrArg TaskAssignment.retry_count (Option.some.inj ha2).symm) hne
    · rw [heq, alistGet_set] at ha2
      by_cases htid : tid = tc
      · subst htid
        rw [if_pos rfl] at ha2
        rw [ha0] at ha
        have ha0a : a0 = a := Option.some.inj ha
        have ha2v := (Option.some.inj ha2).symm
        subst ha0a
        constructor
        · exact (Bool.and_eq_true _ _ |>.mp hcond).2
        · rw [ha2v]
      · rw [if_neg htid, ha] at ha2
        exact absurd (congrArg TaskAssignment.retry_count (Option.some.inj ha2).symm) hne

/-- Witness for C7: under the default policy (bound 3), an assignment at
retry count 0 reported `"failed"` three times ends at count 3, still within
the bound; `should_retry` is true at count 2 since retries are enabled and
2 < 3; and a single failed call increments the count by one from 0. -/
theorem C7_retry_bound_witness :
    (PolicyEngine.should_retry OrchestratorPolicy.default "t" 2 = true ↔
      (OrchestratorPolicy.default.retry_enabled = true ∧
        2 < OrchestratorPolicy.default.max_retries_per_task)) ∧
    (retryBoundInv
      ⟨⟨.EXECUTING, []⟩,
        [("t", ⟨"t", "a", 3, 0, 3, .EXPONENTIAL_BACKOFF, .NEXT_BEST_AGENT⟩)],
        OrchestratorPolicy.default⟩ →
      retryBoundInv (OrchestratorIntelligence.run_monitors
        ⟨⟨.EXECUTING, []⟩,
          [("t", ⟨"t", "a", 3, 0, 3, .EXPONENTIAL_BACKOFF, .NEXT_BEST_AGENT⟩)],
          OrchestratorPolicy.default⟩
        [("t", "failed", 0), ("t", "failed", 1), ("t", "failed", 2)])) ∧
    (alistGet
        (⟨⟨.EXECUTING, []⟩,
          [("t", ⟨"t", "a", 3, 0, 3, .EXPONENTIAL_BACKOFF, .NEXT_BEST_AGENT⟩)],
          OrchestratorPolicy.default⟩ : OrchCore).active_assignments "t" =
        some ⟨"t", "a", 3, 0, 3, .EXPONENTIAL_BACKOFF, .NEXT_BEST_AGENT⟩ →
      alistGet (OrchestratorIntelligence.monitor_execution
        ⟨⟨.EXECUTING, []⟩,
          [("t", ⟨"t", "a", 3, 0, 3, .EXPONENTIAL_BACKOFF, .NEXT_BEST_AGENT⟩)],
          OrchestratorPolicy.default⟩ "t" "failed" 0).2.active_assignments "t" =
        some ⟨"t", "a", 3, 1, 3, .EXPONENTIAL_BACKOFF, .NEXT_BEST_AGENT⟩ →
      (1 : Nat) ≠ 0 →
      PolicyEngine.should_retry OrchestratorPolicy.default "t" 0 = true ∧ (1 : Nat) = 0 + 1) :=
  C7_retry_bound OrchestratorPolicy.default "t" 2
    ⟨⟨.EXECUTING, []⟩,
      [("t", ⟨"t", "a", 3, 0, 3, .EXPONENTIAL_BACKOFF, .NEXT_BEST_AGENT⟩)],
      OrchestratorPolicy.default⟩
    [("t", "failed", 0), ("t", "failed", 1), ("t", "failed", 2)]
    "t" "failed" 0 "t"
    ⟨"t", "a", 3, 0, 3, .EXPONENTIAL_BACKOFF, .NEXT_BEST_AGENT⟩
    ⟨"t", "a", 3, 1, 3, .EXPONENTIAL_BACKOFF, .NEXT_BEST_AGENT⟩

/-! ### Stopping conditions (`class StoppingConditionManager`) -/

/-- A value stored in the metrics dict.  The dict is annotated
`Dict[str, float]` but the `"scores"` entry is in practice a list of
floats (`self.metrics.get("scores", [])` is indexed and measured with
`len`), so values are modelled as numbers or lists of numbers. -/
inductive MetricVal where
  | num (q : ℚ)
  | list (l : List ℚ)
deriving DecidableEq, Repr

/-- `@dataclass StoppingConditionConfig`.  The optional `callback` field is
omitted: it is only ever invoked for its side effect and never affects the
returned value or the manager state. -/
structure StoppingConditionConfig where
  condition_type : StoppingCondition
  threshold : ℚ
  enabled : Bool
deriving DecidableEq, Repr

/-- The state of `class StoppingConditionManager`. -/
structure StoppingConditionManager where
  conditions : List StoppingConditionConfig
  metrics : List (String × MetricVal)
  iteration_count : Nat
  start_time : Option ℚ
deriving DecidableEq, Repr

/-- `StoppingConditionManager()` constructor. -/
def StoppingConditionManager.initial : StoppingConditionManager := ⟨[], [], 0, none⟩

/-- `StoppingConditionManager.add_condition(condition)`. -/
def StoppingConditionManager.add_condition (m : StoppingConditionManager)
    (c : StoppingConditionConfig) : StoppingConditionManager :=
  ⟨m.conditions ++ [c], m.metrics, m.iteration_count, m.start_time⟩

/-- `self.metrics.update(current_metrics)`: dict merge, right side wins. -/
def metricsUpdate (m cm : List (String × MetricVal)) : List (String × MetricVal) :=
  cm.foldl (fun acc p => alistSet acc p.1 p.2) m

/-- `current_metrics.get("confidence", 0.0)`.  (A list stored under
`"confidence"` would make the source comparison raise `TypeError`; the
claims quantify over float-valued metric dicts, where this case is absent.) -/
def confidenceOf (cm : List (String × MetricVal)) : ℚ :=
  match alistGet cm "confidence" with
  | some (.num q) => q
  | _ => 0

/-- `self.metrics.get("scores", [])` (a number stored under `"scores"`
would make `len` in the source raise `TypeError`; same remark as above). -/
def scoresOf (m : List (String × MetricVal)) : List ℚ :=
  match alistGet m "scores" with
  | some (.list l) => l
  | _ => []

/-- Whether one condition fires, given the merged metrics, the incoming
metrics, the iteration counter after increment, the anchored start time and
the current wall clock — the per-kind tests of the `check_conditions` loop.
`HUMAN_INTERVENTION` and `SUCCESS_CRITERIA` have no branch in the loop and
never fire.  `scores[-1]`/`scores[-2]` are the last two entries. -/
def conditionMet (c : StoppingConditionConfig) (merged cm : List (String × MetricVal))
    (iter : Nat) (start now : ℚ) : Bool :=
  match c.condition_type with
  | .CONFIDENCE_THRESHOLD => decide (c.threshold ≤ confidenceOf cm)
  | .SCORE_CONVERGENCE =>
    if 2 ≤ (scoresOf merged).length then
      decide (|(scoresOf merged).getD ((scoresOf merged).length - 1) 0 -
        (scoresOf merged).getD ((scoresOf merged).length - 2) 0| < c.threshold)
    else false
  | .MAX_ITERATIONS => decide (c.threshold ≤ (iter : ℚ))
  | .TIME_LIMIT => decide (c.threshold ≤ now - start)
  | _ => false

/-- The `for condition in self.conditions` loop with its early returns. -/
def checkLoop (conds : List StoppingConditionConfig) (merged cm : List (String × MetricVal))
    (iter : Nat) (start now : ℚ) : Option StoppingCondition :=
  match conds with
  | [] => none
  | c :: rest =>
    if ¬ c.enabled then checkLoop rest merged cm iter start now
    else if conditionMet c merged cm iter start now then some c.condition_type
    else checkLoop rest merged cm iter start now

/-- `StoppingConditionManager.check_conditions(current_metrics)`: merge the
metrics, increment the iteration counter, anchor the start time on first
use, then evaluate the conditions in order.  `now` is the wall clock. -/
def StoppingConditionManager.check_conditions (m : StoppingConditionManager)
    (cm : List (String × MetricVal)) (now : ℚ) :
    Option StoppingCondition × StoppingConditionManager :=
  (checkLoop m.conditions (metricsUpdate m.metrics cm) cm (m.iteration_count + 1)
      (m.start_time.getD now) now,
   ⟨m.conditions, metricsUpdate m.metrics cm, m.iteration_count + 1,
     some (m.start_time.getD now)⟩)

theorem checkLoop_eq_find (conds : List StoppingConditionConfig)
    (merged cm : List (String × MetricVal)) (iter : Nat) (start now : ℚ) :
    checkLoop conds merged cm iter start now =
      (conds.find? (fun c => c.enabled && conditionMet c merged cm iter start now)).map
        (fun c => c.condition_type) := by
  induction conds with
  | nil => rfl
  | cons c rest ih =>
    by_cases he : c.enabled = true
    · by_cases hm : conditionMet c merged cm iter start now = true
      · simp [checkLoop, List.find?, he, hm]
      · simp [checkLoop, List.find?, he, hm, ih]
    · simp [checkLoop, List.find?, he, ih]

/-- The manager of Scenario D: `MaxIterations` with threshold 5 registered
first, `ConfidenceThreshold` with threshold 0.8 registered second, both
enabled, on a fresh manager. -/
def scenarioDManager : StoppingConditionManager :=
  StoppingConditionManager.add_condition
    (StoppingConditionManager.add_condition StoppingConditionManager.initial
      ⟨.MAX_ITERATIONS, 5, true⟩)
    ⟨.CONFIDENCE_THRESHOLD, 8/10, true⟩

/-- Claim C4: every `check_conditions` call merges the given metrics into
the accumulated state, increments the iteration counter, and returns the
kind of the first enabled condition (in registration order) whose test is
satisfied, or none; and on the Scenario D manager a first call with
confidence 0.9 returns `CONFIDENCE_THRESHOLD`. -/
theorem C4_check_conditions (m : StoppingConditionManager)
    (cm : List (String × MetricVal)) (now : ℚ) :
    (StoppingConditionManager.check_conditions m cm now).2.metrics =
      metricsUpdate m.metrics cm ∧
    (StoppingConditionManager.check_conditions m cm now).2.iteration_count =
      m.iteration_count + 1 ∧
    (StoppingConditionManager.check_conditions m cm now).1 =
      (m.conditions.find? (fun c => c.enabled &&
        conditionMet c (metricsUpdate m.metrics cm) cm (m.iteration_count + 1)
          (m.start_time.getD now) now)).map (fun c => c.condition_type) ∧
    (StoppingConditionManager.check_conditions scenarioDManager
      [("confidence", MetricVal.num (9/10))] 0).1 =
      some StoppingCondition.CONFIDENCE_THRESHOLD := by
  refine ⟨rfl, rfl, checkLoop_eq_find _ _ _ _ _ _, ?_⟩
  show checkLoop _ _ _ _ _ _ = _
  rw [checkLoop_eq_find]
  norm_num [scenarioDManager, StoppingConditionManager.add_condition,
    StoppingConditionManager.initial, List.find?, conditionMet, confidenceOf,
    alistGet_cons, alistGet_nil]

/-! ### Task prioritization (`PolicyEngine.prioritize_tasks` and
`PolicyEngine._prioritize_by_dependencies`) -/

/-- One entry of the `tasks` list (a dict; `_prioritize_by_dependencies`
reads only `"task_id"`, the `priority_value` strategy reads
`"priority"`, the remaining fields are carried opaquely as `payload`). -/
structure TaskDict where
  task_id : String
  priority : Nat
  payload : Nat
deriving DecidableEq, Repr

/-- `dependencies.get(task_id, [])`. -/
def depsGet (dependencies : List (String × List String)) (task_id : String) : List String :=
  (alistGet dependencies task_id).getD []

/-- `task_map[tid]`: the dict comprehension
`{t["task_id"]: t for t in tasks}` keeps, for each key, the value of the
last task with that id. -/
def taskMapGet (tasks : List TaskDict) (tid : String) : Option TaskDict :=
  (tasks.filter (fun t => t.task_id == tid)).getLast?

/-- The key list of `task_map` (and of the initial `remaining` set, taken
in insertion order): task ids in order of first occurrence. -/
def taskIds (tasks : List TaskDict) : List String :=
  firstDedup (tasks.map (fun t => t.task_id))

/-- One `batch` computation of the `while remaining` loop: the ids in
`remaining` all of whose dependencies are outside `remaining`.  Note that a
dependency that is not a task id at all ("missing") is never in
`remaining`, so it never blocks its dependent. -/
def kahnBatch (deps : String → List String) (remaining : List String) : List String :=
  remaining.filter (fun tid => (deps tid).all (fun d => !(remaining.contains d)))

/-- The id sequence produced by the `while remaining` loop of
`_prioritize_by_dependencies` followed by the final
`for task_id in remaining` flush: batches are emitted in rounds until no
progress is possible, then whatever is left is appended as is. -/
def kahnOrder (deps : String → List String) (remaining : List String) : List String :=
  if h : (kahnBatch deps remaining).isEmpty then remaining
  else
    kahnBatch deps remaining ++
      kahnOrder deps
        (remaining.filter (fun t => !((kahnBatch deps remaining).contains t)))
termination_by remaining.length
decreasing_by
  apply List.length_filter_lt_length_iff_exists.mpr
  rcases List.exists_mem_of_ne_nil _ (by simpa using h) with ⟨x, hx⟩
  refine ⟨x, List.mem_of_mem_filter hx, ?_⟩
  simp [hx]

/-- The batch-emitted prefix of `kahnOrder` (the ids ordered by the loop). -/
def kahnBatched (deps : String → List String) (remaining : List String) : List String :=
  if (kahnBatch deps remaining).isEmpty then []
  else
    kahnBatch deps remaining ++
      kahnBatched deps
        (remaining.filter (fun t => !((kahnBatch deps remaining).contains t)))
termination_by remaining.length
decreasing_by
  apply List.length_filter_lt_length_iff_exists.mpr
  rename_i h
  rcases List.exists_mem_of_ne_nil _ (by simpa using h) with ⟨x, hx⟩
  refine ⟨x, List.mem_of_mem_filter hx, ?_⟩
  simp [hx]

/-- The leftover suffix of `kahnOrder` (the `remaining` set at loop exit,
flushed unordered by the source; list order here). -/
def kahnLeftover (deps : String → List String) (remaining : List String) : List String :=
  if (kahnBatch deps remaining).isEmpty then remaining
  else
    kahnLeftover deps
      (remaining.filter (fun t => !((kahnBatch deps remaining).contains t)))
termination_by remaining.length
decreasing_by
  apply List.length_filter_lt_length_iff_exists.mpr
  rename_i h
  rcases List.exists_mem_of_ne_nil _ (by simpa using h) with ⟨x, hx⟩
  refine ⟨x, List.mem_of_mem_filter hx, ?_⟩
  simp [hx]

/-- `PolicyEngine._prioritize_by_dependencies(tasks, dependencies)`. -/
def PolicyEngine.prioritize_by_dependencies (tasks : List TaskDict)
    (dependencies : List (String × List String)) : List TaskDict :=
  (kahnOrder (depsGet dependencies) (taskIds tasks)).filterMap (taskMapGet tasks)

/-- Stable insertion for the ascending sort by priority. -/
def insertByPriority (x : TaskDict) : List TaskDict → List TaskDict
  | [] => [x]
  | y :: ys => if x.priority ≤ y.priority then x :: y :: ys else y :: insertByPriority x ys

/-- The stable ascending sort `sorted(tasks, key=lambda x: x.get("priority", 5))`
of the `priority_value` strategy. -/
def sortByPriority : List TaskDict → List TaskDict
  | [] => []
  | x :: xs => insertByPriority x (sortByPriority xs)

/-- `PolicyEngine.prioritize_tasks(tasks, dependencies)`. -/
def PolicyEngine.prioritize_tasks (policy : OrchestratorPolicy) (tasks : List TaskDict)
    (dependencies : List (String × List String)) : List TaskDict :=
  if policy.task_prioritization_strategy == "dependency_aware" then
    PolicyEngine.prioritize_by_dependencies tasks dependencies
  else if policy.task_prioritization_strategy == "priority_value" then
    sortByPriority tasks
  else
    tasks

theorem kahnOrder_perm (deps : String → List String) (r : List String) :
    (kahnOrder deps r).Perm r := by
  induction r using kahnOrder.induct deps with
  | case1 r h => rw [kahnOrder, dif_pos h]
  | case2 r h ih =>
    rw [kahnOrder, dif_neg h]
    have hcongr : r.filter (fun t => !((kahnBatch deps r).contains t)) =
        r.filter (fun t => !((deps t).all (fun d => !(r.contains d)))) := by
      apply List.filter_congr
      intro x hx
      by_cases hp : ((deps x).all (fun d => !(r.contains d))) = true
      · have hmem : x ∈ kahnBatch deps r := List.mem_filter.mpr ⟨hx, hp⟩
        have hc : (kahnBatch deps r).contains x = true := List.elem_eq_true_of_mem hmem
        rw [hc, hp]
      · have hnm : x ∉ kahnBatch deps r := by
          intro hmem
          exact hp (List.mem_filter.mp hmem).2
        have hc : (kahnBatch deps r).contains x = false := by
          revert hnm
          cases hcc : (kahnBatch deps r).contains x
          · intro _; rfl
          · intro hnm
            exact absurd (by simpa using hcc) hnm
        have hp2 : ((deps x).all (fun d => !(r.contains d))) = false := by
          revert hp
          cases ((deps x).all (fun d => !(r.contains d))) <;> simp
        rw [hc, hp2]
    refine List.Perm.trans (List.Perm.append_left _ ih) ?_
    rw [hcongr]
    exact List.filter_append_perm _ r

theorem kahnOrder_split (deps : String → List String) (r : List String) :
    kahnOrder deps r = kahnBatched deps r ++ kahnLeftover deps r := by
  induction r using kahnOrder.induct deps with
  | case1 r h =>
    rw [kahnOrder, dif_pos h, kahnBatched, if_pos h, kahnLeftover, if_pos h]
    rfl
  | case2 r h ih =>
    rw [kahnOrder, dif_neg h, kahnBatched, if_neg h, kahnLeftover, if_neg h, ih,
      List.append_assoc]

theorem kahnLeftover_stuck (deps : String → List String) (r : List String) :
    kahnBatch deps (kahnLeftover deps r) = [] := by
  induction r using kahnOrder.induct deps with
  | case1 r h =>
    rw [kahnLeftover, if_pos h]
    exact List.isEmpty_iff.mp h
  | case2 r h ih =>
    rw [kahnLeftover, if_neg h]
    exact ih

/-- Every id left over at loop exit has a dependency that is also left
over: these are exactly the tasks that can never become ready with respect
to in-set dependencies (dependency cycles and chains into them). -/
theorem kahnLeftover_blocked (deps : String → List String) (r : List String) :
    ∀ t ∈ kahnLeftover deps r, ∃ d ∈ deps t, d ∈ kahnLeftover deps r := by
  intro t ht
  have hstuck := kahnLeftover_stuck deps r
  have hfail : ((deps t).all (fun d => !((kahnLeftover deps r).contains d))) = false := by
    cases hcc : ((deps t).all (fun d => !((kahnLeftover deps r).contains d))) with
    | false => rfl
    | true =>
      have hmem : t ∈ kahnBatch deps (kahnLeftover deps r) :=
        List.mem_filter.mpr ⟨ht, hcc⟩
      rw [hstuck] at hmem
      simp at hmem
  rcases List.all_eq_false.mp hfail with ⟨d, hd, hdc⟩
  refine ⟨d, hd, ?_⟩
  simpa using hdc

/-- Topological precedence in the batch-ordered prefix: a dependency of a
batched id that is itself an input id occurs strictly earlier in the
batched prefix. -/
theorem kahnBatched_topo (deps : String → List String) (r : List String) :
    ∀ b ∈ kahnBatched deps r, ∀ d ∈ deps b, d ∈ r →
      ∃ l₁ l₂, kahnBatched deps r = l₁ ++ b :: l₂ ∧ d ∈ l₁ := by
  induction r using kahnOrder.induct deps with
  | case1 r h =>
    intro b hb
    rw [kahnBatched, if_pos h] at hb
    simp at hb
  | case2 r h ih =>
    intro b hb d hd hdr
    rw [kahnBatched, if_neg h] at hb ⊢
    rcases List.mem_append.mp hb with hbb | hbr
    · have hall := (List.mem_filter.mp hbb).2
      have hnd := List.all_eq_true.mp hall d hd
      exact absurd (List.elem_eq_true_of_mem hdr) (by simpa using hnd)
    · by_cases hdb : d ∈ kahnBatch deps r
      · rcases List.append_of_mem hbr with ⟨r1, r2, hr⟩
        refine ⟨kahnBatch deps r ++ r1, r2, ?_, List.mem_append.mpr (Or.inl hdb)⟩
        rw [hr, List.append_assoc]
      · have hdnew : d ∈ r.filter (fun t => !((kahnBatch deps r).contains t)) := by
          apply List.mem_filter.mpr
          refine ⟨hdr, ?_⟩
          simp [hdb]
        rcases ih b hbr d hd hdnew with ⟨l1, l2, hsplit, hdl1⟩
        refine ⟨kahnBatch deps r ++ l1, l2, ?_, List.mem_append.mpr (Or.inr hdl1)⟩
        rw [hsplit, List.append_assoc]

theorem taskMapGet_eq_some (tasks : List TaskDict) (tid : String)
    (h : tid ∈ tasks.map (fun t => t.task_id)) :
    ∃ t, taskMapGet tasks tid = some t ∧ t.task_id = tid := by
  rcases List.mem_map.mp h with ⟨t, ht, rfl⟩
  have hmem : t ∈ tasks.filter (fun u => u.task_id == t.task_id) :=
    List.mem_filter.mpr ⟨ht, by simp⟩
  cases hL : (tasks.filter (fun u => u.task_id == t.task_id)).getLast? with
  | none =>
    rw [List.getLast?_eq_none_iff] at hL
    rw [hL] at hmem
    simp at hmem
  | some u =>
    have humem : u ∈ tasks.filter (fun v => v.task_id == t.task_id) := by
      rcases List.mem_getLast?_eq_getLast hL with ⟨hne, he⟩
      exact he ▸ List.getLast_mem hne
    have hup : (u.task_id == t.task_id) = true := (List.mem_filter.mp humem).2
    exact ⟨u, hL, by simpa using hup⟩

theorem filterMap_taskMapGet_map_id (tasks : List TaskDict) (L : List String)
    (hsub : ∀ tid ∈ L, tid ∈ tasks.map (fun t => t.task_id)) :
    (L.filterMap (taskMapGet tasks)).map (fun t => t.task_id) = L := by
  induction L with
  | nil => rfl
  | cons x xs ih =>
    rcases taskMapGet_eq_some tasks x (hsub x (List.mem_cons_self _ _)) with ⟨t, ht, htid⟩
    rw [List.filterMap_cons_some ht, List.map_cons, htid,
      ih (fun tid hid => hsub tid (List.mem_cons_of_mem _ hid))]

theorem map_id_filterMap_eq_self (tasks : List TaskDict)
    (hnd : (tasks.map (fun t => t.task_id)).Nodup) :
    ((tasks.map (fun t => t.task_id)).filterMap (taskMapGet tasks)) = tasks := by
  induction tasks with
  | nil => rfl
  | cons t ts ih =>
    rw [List.map_cons] at hnd
    have hnotin : t.task_id ∉ ts.map (fun u => u.task_id) := (List.nodup_cons.mp hnd).1
    have h1 : taskMapGet (t :: ts) t.task_id = some t := by
      unfold taskMapGet
      have hf : (t :: ts).filter (fun u => u.task_id == t.task_id) = [t] := by
        rw [List.filter_cons]
        have hts : ts.filter (fun u => u.task_id == t.task_id) = [] := by
          rw [List.filter_eq_nil_iff]
          intro u hu
          intro hb
          exact hnotin (List.mem_map.mpr ⟨u, hu, by simpa using hb⟩)
        simp [hts]
      rw [hf]
      rfl
    have h2 : ∀ tid ∈ ts.map (fun u => u.task_id),
        taskMapGet (t :: ts) tid = taskMapGet ts tid := by
      intro tid hid
      have hne : ¬ (t.task_id == tid) = true := by
        intro hb
        exact hnotin ((by simpa using hb : t.task_id = tid) ▸ hid)
      unfold taskMapGet
      rw [List.filter_cons]
      simp [hne]
    rw [List.map_cons, List.filterMap_cons_some h1]
    have hcongr : (ts.map (fun u => u.task_id)).filterMap (taskMapGet (t :: ts)) =
        (ts.map (fun u => u.task_id)).filterMap (taskMapGet ts) :=
      List.filterMap_congr h2
    rw [hcongr, ih (List.nodup_cons.mp hnd).2]

/-- Claim C1 (amended): for every task list with pairwise-distinct task ids,
`prioritize_tasks` under the dependency-aware strategy always terminates and
returns a permutation of its input; its id sequence is the batch-ordered
prefix followed by the leftover ids; every leftover id has a dependency that
is itself leftover (these are the tasks that can never become ready with
respect to in-set dependencies: cycles and chains into cycles — a
dependency absent from the task set is treated as already satisfied, so
tasks with missing dependencies are ordered normally rather than appended
last); and the batch-ordered prefix respects topological order: an in-set
dependency of a batched task occurs strictly earlier. -/
theorem C1_prioritize_tasks_dependency_aware (policy : OrchestratorPolicy)
    (hstrat : policy.task_prioritization_strategy = "dependency_aware")
    (tasks : List TaskDict) (dependencies : List (String × List String))
    (hnd : (tasks.map (fun t => t.task_id)).Nodup) :
    (PolicyEngine.prioritize_tasks policy tasks dependencies).Perm tasks ∧
    (PolicyEngine.prioritize_tasks policy tasks dependencies).map (fun t => t.task_id) =
      kahnBatched (depsGet dependencies) (tasks.map (fun t => t.task_id)) ++
        kahnLeftover (depsGet dependencies) (tasks.map (fun t => t.task_id)) ∧
    (∀ tid ∈ kahnLeftover (depsGet dependencies) (tasks.map (fun t => t.task_id)),
      ∃ d ∈ depsGet dependencies tid,
        d ∈ kahnLeftover (depsGet dependencies) (tasks.map (fun t => t.task_id))) ∧
    (∀ b ∈ kahnBatched (depsGet dependencies) (tasks.map (fun t => t.task_id)),
      ∀ d ∈ depsGet dependencies b, d ∈ tasks.map (fun t => t.task_id) →
        ∃ l₁ l₂, kahnBatched (depsGet dependencies) (tasks.map (fun t => t.task_id)) =
          l₁ ++ b :: l₂ ∧ d ∈ l₁) := by
  have hpt : PolicyEngine.prioritize_tasks policy tasks dependencies =
      PolicyEngine.prioritize_by_dependencies tasks dependencies := by
    simp [PolicyEngine.prioritize_tasks, hstrat]
  have hids : taskIds tasks = tasks.map (fun t => t.task_id) :=
    firstDedup_eq_self _ hnd
  refine ⟨?_, ?_, kahnLeftover_blocked _ _, kahnBatched_topo _ _⟩
  · rw [hpt, PolicyEngine.prioritize_by_dependencies, hids]
    refine List.Perm.trans
      (List.Perm.filterMap (taskMapGet tasks)
        (kahnOrder_perm (depsGet dependencies) (tasks.map (fun t => t.task_id)))) ?_
    rw [map_id_filterMap_eq_self tasks hnd]
  · rw [hpt, PolicyEngine.prioritize_by_dependencies, hids,
      filterMap_taskMapGet_map_id tasks _ ?_, kahnOrder_split]
    intro tid htid
    exact (kahnOrder_perm (depsGet dependencies) _).mem_iff.mp htid

/-- Counterexample to C1 as stated: the claim says a task with a missing
dependency can never become ready and is appended after all orderable
tasks, and that the output is always a permutation of the input.  In the
code a dependency absent from the task set never blocks its dependent, so
task `a` (dependency `ghost`, not a task) lands in the first batch: the
output is `[a, c, d]`, with `a` before the orderable tasks `c` and `d`
instead of last.  And with two tasks sharing id `x` the output keeps only
the last one, so it is not a permutation of the input. -/
theorem C1_prioritize_tasks_counterexample :
    (PolicyEngine.prioritize_tasks OrchestratorPolicy.default
        [⟨"a", 5, 0⟩, ⟨"c", 5, 1⟩, ⟨"d", 5, 2⟩] [("a", ["ghost"]), ("d", ["c"])] =
      [⟨"a", 5, 0⟩, ⟨"c", 5, 1⟩, ⟨"d", 5, 2⟩] ∧
     (PolicyEngine.prioritize_tasks OrchestratorPolicy.default
        [⟨"a", 5, 0⟩, ⟨"c", 5, 1⟩, ⟨"d", 5, 2⟩]
        [("a", ["ghost"]), ("d", ["c"])]).getLast? ≠ some ⟨"a", 5, 0⟩) ∧
    (PolicyEngine.prioritize_tasks OrchestratorPolicy.default
        [⟨"x", 5, 1⟩, ⟨"x", 5, 2⟩] [] = [⟨"x", 5, 2⟩] ∧
     ¬ (PolicyEngine.prioritize_tasks OrchestratorPolicy.default
        [⟨"x", 5, 1⟩, ⟨"x", 5, 2⟩] []).Perm [⟨"x", 5, 1⟩, ⟨"x", 5, 2⟩]) := by
  have h1 : kahnOrder (depsGet [("a", ["ghost"]), ("d", ["c"])])
      (taskIds [⟨"a", 5, 0⟩, ⟨"c", 5, 1⟩, ⟨"d", 5, 2⟩]) = ["a", "c", "d"] := by
    rw [kahnOrder, dif_neg (by decide), kahnOrder, dif_neg (by decide),
      kahnOrder, dif_pos (by decide)]
    decide
  have h2 : kahnOrder (depsGet ([] : List (String × List String)))
      (taskIds [⟨"x", 5, 1⟩, ⟨"x", 5, 2⟩]) = ["x"] := by
    rw [kahnOrder, dif_neg (by decide), kahnOrder, dif_pos (by decide)]
    decide
  have e1 : PolicyEngine.prioritize_tasks OrchestratorPolicy.default
      [⟨"a", 5, 0⟩, ⟨"c", 5, 1⟩, ⟨"d", 5, 2⟩] [("a", ["ghost"]), ("d", ["c"])] =
      [⟨"a", 5, 0⟩, ⟨"c", 5, 1⟩, ⟨"d", 5, 2⟩] := by
    show (kahnOrder (depsGet [("a", ["ghost"]), ("d", ["c"])])
        (taskIds [⟨"a", 5, 0⟩, ⟨"c", 5, 1⟩, ⟨"d", 5, 2⟩])).filterMap
          (taskMapGet [⟨"a", 5, 0⟩, ⟨"c", 5, 1⟩, ⟨"d", 5, 2⟩]) = _
    rw [h1]
    decide
  have e2 : PolicyEngine.prioritize_tasks OrchestratorPolicy.default
      [⟨"x", 5, 1⟩, ⟨"x", 5, 2⟩] [] = [⟨"x", 5, 2⟩] := by
    show (kahnOrder (depsGet ([] : List (String × List String)))
        (taskIds [⟨"x", 5, 1⟩, ⟨"x", 5, 2⟩])).filterMap
          (taskMapGet [⟨"x", 5, 1⟩, ⟨"x", 5, 2⟩]) = _
    rw [h2]
    decide
  refine ⟨⟨e1, ?_⟩, e2, ?_⟩
  · rw [e1]
    decide
  · rw [e2]
    intro hperm
    have := hperm.length_eq
    simp at this

/-- Witness for C1 (amended) at a concrete input: two tasks with distinct
ids where `t2` depends on `t1`. -/
theorem C1_prioritize_tasks_dependency_aware_witness :
    OrchestratorPolicy.default.task_prioritization_strategy = "dependency_aware" ∧
    (([⟨"t1", 5, 0⟩, ⟨"t2", 5, 1⟩] : List TaskDict).map (fun t => t.task_id)).Nodup ∧
    ((PolicyEngine.prioritize_tasks OrchestratorPolicy.default
        [⟨"t1", 5, 0⟩, ⟨"t2", 5, 1⟩] [("t2", ["t1"])]).Perm
          [⟨"t1", 5, 0⟩, ⟨"t2", 5, 1⟩] ∧
     (PolicyEngine.prioritize_tasks OrchestratorPolicy.default
        [⟨"t1", 5, 0⟩, ⟨"t2", 5, 1⟩] [("t2", ["t1"])]).map (fun t => t.task_id) =
      kahnBatched (depsGet [("t2", ["t1"])])
          (([⟨"t1", 5, 0⟩, ⟨"t2", 5, 1⟩] : List TaskDict).map (fun t => t.task_id)) ++
        kahnLeftover (depsGet [("t2", ["t1"])])
          (([⟨"t1", 5, 0⟩, ⟨"t2", 5, 1⟩] : List TaskDict).map (fun t => t.task_id)) ∧
     (∀ tid ∈ kahnLeftover (depsGet [("t2", ["t1"])])
          (([⟨"t1", 5, 0⟩, ⟨"t2", 5, 1⟩] : List TaskDict).map (fun t => t.task_id)),
        ∃ d ∈ depsGet [("t2", ["t1"])] tid,
          d ∈ kahnLeftover (depsGet [("t2", ["t1"])])
            (([⟨"t1", 5, 0⟩, ⟨"t2", 5, 1⟩] : List TaskDict).map (fun t => t.task_id))) ∧
     (∀ b ∈ kahnBatched (depsGet [("t2", ["t1"])])
          (([⟨"t1", 5, 0⟩, ⟨"t2", 5, 1⟩] : List TaskDict).map (fun t => t.task_id)),
        ∀ d ∈ depsGet [("t2", ["t1"])] b,
          d ∈ ([⟨"t1", 5, 0⟩, ⟨"t2", 5, 1⟩] : List TaskDict).map (fun t => t.task_id) →
          ∃ l₁ l₂,
            kahnBatched (depsGet [("t2", ["t1"])])
              (([⟨"t1", 5, 0⟩, ⟨"t2", 5, 1⟩] : List TaskDict).map (fun t => t.task_id)) =
              l₁ ++ b :: l₂ ∧ d ∈ l₁)) :=
  ⟨rfl, by decide,
   C1_prioritize_tasks_dependency_aware OrchestratorPolicy.default rfl
     [⟨"t1", 5, 0⟩, ⟨"t2", 5, 1⟩] [("t2", ["t1"])] (by decide)⟩

/-- Claim C10: for every input task list containing duplicate task ids,
`prioritize_tasks` under the dependency-aware strategy returns exactly one
task per distinct id — the last occurrence in the input — so the output
length is the number of distinct ids, strictly less than the input
length. -/
theorem C10_prioritize_tasks_duplicates (policy : OrchestratorPolicy)
    (hstrat : policy.task_prioritization_strategy = "dependency_aware")
    (tasks : List TaskDict) (dependencies : List (String × List String))
    (hdup : ¬ (tasks.map (fun t => t.task_id)).Nodup) :
    ((PolicyEngine.prioritize_tasks policy tasks dependencies).map
        (fun t => t.task_id)).Perm (taskIds tasks) ∧
    ((PolicyEngine.prioritize_tasks policy tasks dependencies).map
        (fun t => t.task_id)).Nodup ∧
    (∀ t ∈ PolicyEngine.prioritize_tasks policy tasks dependencies,
      (tasks.filter (fun u => u.task_id == t.task_id)).getLast? = some t) ∧
    (PolicyEngine.prioritize_tasks policy tasks dependencies).length =
      (taskIds tasks).length ∧
    (PolicyEngine.prioritize_tasks policy tasks dependencies).length < tasks.length := by
  have hpt : PolicyEngine.prioritize_tasks policy tasks dependencies =
      PolicyEngine.prioritize_by_dependencies tasks dependencies := by
    simp [PolicyEngine.prioritize_tasks, hstrat]
  have hsub : ∀ tid ∈ kahnOrder (depsGet dependencies) (taskIds tasks),
      tid ∈ tasks.map (fun t => t.task_id) := by
    intro tid htid
    have h1 : tid ∈ taskIds tasks :=
      (kahnOrder_perm (depsGet dependencies) (taskIds tasks)).mem_iff.mp htid
    exact (mem_firstDedup _ _).mp h1
  have hmapid : (PolicyEngine.prioritize_tasks policy tasks dependencies).map
      (fun t => t.task_id) = kahnOrder (depsGet dependencies) (taskIds tasks) := by
    rw [hpt, PolicyEngine.prioritize_by_dependencies]
    exact filterMap_taskMapGet_map_id tasks _ hsub
  have hperm : ((PolicyEngine.prioritize_tasks policy tasks dependencies).map
      (fun t => t.task_id)).Perm (taskIds tasks) := by
    rw [hmapid]
    exact kahnOrder_perm _ _
  refine ⟨hperm, ?_, ?_, ?_, ?_⟩
  · exact hperm.nodup_iff.mpr (firstDedup_nodup _)
  · intro t ht
    rw [hpt, PolicyEngine.prioritize_by_dependencies] at ht
    rcases List.mem_filterMap.mp ht with ⟨tid, _, hsome⟩
    have htid : t.task_id = tid := by
      unfold taskMapGet at hsome
      cases hL : (tasks.filter (fun u => u.task_id == tid)).getLast? with
      | none => rw [hL] at hsome; cases hsome
      | some u =>
        rw [hL] at hsome
        cases hsome
        rcases List.mem_getLast?_eq_getLast hL with ⟨hne, he⟩
        have humem := he ▸ List.getLast_mem hne
        simpa using (List.mem_filter.mp humem).2
    rw [htid]
    unfold taskMapGet at hsome
    exact hsome
  · have := hperm.length_eq
    simpa using this
  · have h1 : (PolicyEngine.prioritize_tasks policy tasks dependencies).length =
        (taskIds tasks).length := by
      have := hperm.length_eq
      simpa using this
    have h2 : (taskIds tasks).length < tasks.length := by
      have := firstDedup_length_lt (tasks.map (fun t => t.task_id)) hdup
      simpa using this
    rw [h1]
    exact h2

/-- Witness for C10: two tasks share id `x`; the output is the single last
occurrence. -/
theorem C10_prioritize_tasks_duplicates_witness :
    OrchestratorPolicy.default.task_prioritization_strategy = "dependency_aware" ∧
    ¬ (([⟨"x", 5, 1⟩, ⟨"x", 5, 2⟩] : List TaskDict).map (fun t => t.task_id)).Nodup ∧
    (((PolicyEngine.prioritize_tasks OrchestratorPolicy.default
        [⟨"x", 5, 1⟩, ⟨"x", 5, 2⟩] []).map (fun t => t.task_id)).Perm
          (taskIds [⟨"x", 5, 1⟩, ⟨"x", 5, 2⟩]) ∧
     ((PolicyEngine.prioritize_tasks OrchestratorPolicy.default
        [⟨"x", 5, 1⟩, ⟨"x", 5, 2⟩] []).map (fun t => t.task_id)).Nodup ∧
     (∀ t ∈ PolicyEngine.prioritize_tasks OrchestratorPolicy.default
        [⟨"x", 5, 1⟩, ⟨"x", 5, 2⟩] [],
        (([⟨"x", 5, 1⟩, ⟨"x", 5, 2⟩] : List TaskDict).filter
          (fun u => u.task_id == t.task_id)).getLast? = some t) ∧
     (PolicyEngine.prioritize_tasks OrchestratorPolicy.default
        [⟨"x", 5, 1⟩, ⟨"x", 5, 2⟩] []).length =
       (taskIds [⟨"x", 5, 1⟩, ⟨"x", 5, 2⟩]).length ∧
     (PolicyEngine.prioritize_tasks OrchestratorPolicy.default
        [⟨"x", 5, 1⟩, ⟨"x", 5, 2⟩] []).length <
       ([⟨"x", 5, 1⟩, ⟨"x", 5, 2⟩] : List TaskDict).length) :=
  ⟨rfl, by decide,
   C10_prioritize_tasks_duplicates OrchestratorPolicy.default rfl
     [⟨"x", 5, 1⟩, ⟨"x", 5, 2⟩] [] (by decide)⟩

/-! ### The execution phase (`ExecutionFlow._phase_execution` in
execution_flow.py) -/

/-- One entry of the decomposed task list handed to `_phase_execution`
(only `task_id`, `description` and `dependencies` are relevant). -/
structure ExecTask where
  task_id : String
  description : String
  dependencies : List String
deriving DecidableEq, Repr

/-- `class TaskStatus(Enum)` of agents.py. -/
inductive AgentTaskStatus where
  | PENDING | IN_PROGRESS | COMPLETED | FAILED | RETRYING | SKIPPED
deriving DecidableEq, Repr

/-- The external collaborators of the execution loop, passed as oracles:
the agent chosen by `_controller_select_agent` (`none` models no agent
found, which skips the task), the `status` of the chosen agent's
`execute_task` result, and the evaluator's `overall_score` for the task
output. -/
structure ExecOracle where
  selected : String → Option String
  outcome : String → AgentTaskStatus
  score : String → ℚ

/-- Observable steps of `_phase_execution`, in program order:
`update_task_status` writes, the agent invocation
(`selected_agent.execute_task`), and the `assign_credit` ledger write. -/
inductive ExecEvent where
  | statusSet (task_id status : String)
  | invoked (task_id agent_id : String)
  | creditAssigned (agent_id task_id : String) (success : Bool)
deriving DecidableEq, Repr

/-- One iteration of the `for task_data in tasks` loop of
`_phase_execution`, returning its events and the updated controller
failure-count dict.  Decision logic per `_controller_decide_action` and
the controller agent: `COMPLETED` with score `>= 0.7` is `continue`
(status `"completed"`); `FAILED` escalates, which yields action `"retry"`
while the failure count is below 2 (status `"retrying"` via
`_handle_retry`) and `"human_intervention"` afterwards (no status write);
anything else is a controller `"retry"` with count 1 of 3 (status
`"retrying"`).  Credit success is `status == COMPLETED`. -/
def execTaskBlock (oracle : ExecOracle) (fc : List (String × Nat)) (t : ExecTask) :
    List ExecEvent × List (String × Nat) :=
  match oracle.selected t.task_id with
  | none => ([ExecEvent.statusSet t.task_id "in_progress"], fc)
  | some aid =>
    if oracle.outcome t.task_id = AgentTaskStatus.COMPLETED ∧
        (7/10 : ℚ) ≤ oracle.score t.task_id then
      ([ExecEvent.statusSet t.task_id "in_progress",
        ExecEvent.invoked t.task_id aid,
        ExecEvent.statusSet t.task_id "completed",
        ExecEvent.creditAssigned aid t.task_id
          (oracle.outcome t.task_id == AgentTaskStatus.COMPLETED)], fc)
    else if oracle.outcome t.task_id = AgentTaskStatus.FAILED then
      if (alistGet fc t.task_id).getD 0 + 1 < 2 then
        ([ExecEvent.statusSet t.task_id "in_progress",
          ExecEvent.invoked t.task_id aid,
          ExecEvent.statusSet t.task_id "retrying",
          ExecEvent.creditAssigned aid t.task_id false],
         alistSet fc t.task_id ((alistGet fc t.task_id).getD 0 + 1))
      else
        ([ExecEvent.statusSet t.task_id "in_progress",
          ExecEvent.invoked t.task_id aid,
          ExecEvent.creditAssigned aid t.task_id false],
         alistSet fc t.task_id ((alistGet fc t.task_id).getD 0 + 1))
    else
      ([ExecEvent.statusSet t.task_id "in_progress",
        ExecEvent.invoked t.task_id aid,
        ExecEvent.statusSet t.task_id "retrying",
        ExecEvent.creditAssigned aid t.task_id
          (oracle.outcome t.task_id == AgentTaskStatus.COMPLETED)], fc)

/-- The `for task_data in tasks` loop, threading the controller failure
counts. -/
def phaseExecutionAux (oracle : ExecOracle) (fc : List (String × Nat)) :
    List ExecTask → List ExecEvent
  | [] => []
  | t :: ts =>
    (execTaskBlock oracle fc t).1 ++
      phaseExecutionAux oracle (execTaskBlock oracle fc t).2 ts

/-- `ExecutionFlow._phase_execution(tasks)` as its event trace. -/
def ExecutionFlow.phase_execution (oracle : ExecOracle) (tasks : List ExecTask) :
    List ExecEvent :=
  phaseExecutionAux oracle [] tasks

/-- The task id of an agent-invocation event. -/
def invokedId : ExecEvent → Option String
  | .invoked tid _ => some tid
  | _ => none

theorem execTaskBlock_invoked (oracle : ExecOracle) (fc : List (String × Nat))
    (t : ExecTask) :
    (execTaskBlock oracle fc t).1.filterMap invokedId =
      match oracle.selected t.task_id with
      | none => []
      | some _ => [t.task_id] := by
  unfold execTaskBlock
  cases oracle.selected t.task_id with
  | none => rfl
  | some aid =>
    by_cases h1 : (oracle.outcome t.task_id = AgentTaskStatus.COMPLETED ∧
        (7/10 : ℚ) ≤ oracle.score t.task_id)
    · simp [h1, invokedId]
    · by_cases h2 : oracle.outcome t.task_id = AgentTaskStatus.FAILED
      · by_cases h3 : (alistGet fc t.task_id).getD 0 + 1 < 2
        · simp [h1, h2, h3, invokedId]
        · simp [h1, h2, h3, invokedId]
      · simp [h1, h2, invokedId]

/-- Claim C2 (amended): `_phase_execution` invokes an agent exactly once
per task for which an agent is selected, strictly in decomposition list
order, for every possible pattern of agent outcomes — the recorded
dependencies and the completion status of earlier tasks are never
consulted, so a task starts as soon as its list turn arrives even when a
dependency did not reach Completed. -/
theorem C2_execution_sequential_order (oracle : ExecOracle) (tasks : List ExecTask) :
    (ExecutionFlow.phase_execution oracle tasks).filterMap invokedId =
      (tasks.filter (fun t => (oracle.selected t.task_id).isSome)).map
        (fun t => t.task_id) := by
  show (phaseExecutionAux oracle [] tasks).filterMap invokedId = _
  generalize [] = fc
  induction tasks generalizing fc with
  | nil => rfl
  | cons t ts ih =>
    rw [phaseExecutionAux, List.filterMap_append, execTaskBlock_invoked, List.filter_cons]
    cases hsel : oracle.selected t.task_id with
    | none => simpa [hsel] using ih _
    | some aid => simpa [hsel] using ih _

/-- The oracle of the C2 counterexample: an agent is always selected, the
agent fails on task `a` and succeeds elsewhere, every evaluation scores
`1.0`. -/
def cxOracleC2 : ExecOracle :=
  ⟨fun _ => some "coder_1",
   fun tid => if tid = "a" then AgentTaskStatus.FAILED else AgentTaskStatus.COMPLETED,
   fun _ => 1⟩

/-- Counterexample to C2 as stated: with tasks `a` and `b` where `b` lists
`a` among its dependencies and the agent fails on `a`, the trace still
contains the invocation of `b`, yet no event ever sets `a` to
`"completed"` — `b` starts without `a` having reached Completed. -/
theorem C2_execution_counterexample :
    "a" ∈ (⟨"b", "", ["a"]⟩ : ExecTask).dependencies ∧
    ExecutionFlow.phase_execution cxOracleC2 [⟨"a", "", []⟩, ⟨"b", "", ["a"]⟩] =
      [ExecEvent.statusSet "a" "in_progress",
       ExecEvent.invoked "a" "coder_1",
       ExecEvent.statusSet "a" "retrying",
       ExecEvent.creditAssigned "coder_1" "a" false,
       ExecEvent.statusSet "b" "in_progress",
       ExecEvent.invoked "b" "coder_1",
       ExecEvent.statusSet "b" "completed",
       ExecEvent.creditAssigned "coder_1" "b" true] ∧
    ExecEvent.invoked "b" "coder_1" ∈
      ExecutionFlow.phase_execution cxOracleC2 [⟨"a", "", []⟩, ⟨"b", "", ["a"]⟩] ∧
    ExecEvent.statusSet "a" "completed" ∉
      ExecutionFlow.phase_execution cxOracleC2 [⟨"a", "", []⟩, ⟨"b", "", ["a"]⟩] := by
  have e1 : execTaskBlock cxOracleC2 [] ⟨"a", "", []⟩ =
      ([ExecEvent.statusSet "a" "in_progress",
        ExecEvent.invoked "a" "coder_1",
        ExecEvent.statusSet "a" "retrying",
        ExecEvent.creditAssigned "coder_1" "a" false], [("a", 1)]) := by
    simp only [execTaskBlock, cxOracleC2]
    rw [if_neg (by simp), if_pos (by simp), if_pos (by simp [alistGet])]
    rfl
  have e2 : execTaskBlock cxOracleC2 [("a", 1)] ⟨"b", "", ["a"]⟩ =
      ([ExecEvent.statusSet "b" "in_progress",
        ExecEvent.invoked "b" "coder_1",
        ExecEvent.statusSet "b" "completed",
        ExecEvent.creditAssigned "coder_1" "b" true], [("a", 1)]) := by
    simp only [execTaskBlock, cxOracleC2]
    rw [if_pos (by refine ⟨by simp, ?_⟩; norm_num)]
    rfl
  have htrace : ExecutionFlow.phase_execution cxOracleC2
      [⟨"a", "", []⟩, ⟨"b", "", ["a"]⟩] =
      [ExecEvent.statusSet "a" "in_progress",
       ExecEvent.invoked "a" "coder_1",
       ExecEvent.statusSet "a" "retrying",
       ExecEvent.creditAssigned "coder_1" "a" false,
       ExecEvent.statusSet "b" "in_progress",
       ExecEvent.invoked "b" "coder_1",
       ExecEvent.statusSet "b" "completed",
       ExecEvent.creditAssigned "coder_1" "b" true] := by
    rw [ExecutionFlow.phase_execution, phaseExecutionAux, e1, phaseExecutionAux, e2,
      phaseExecutionAux]
    rfl
  refine ⟨by decide, htrace, ?_, ?_⟩ <;> rw [htrace] <;> decide
